import Mathlib

/-!
# Verification of the cloudcrawl automation subsystem

Shallow embedding of the automation pipeline of the cloudcrawl repository:
`src/core/services/automation_service.py` (AutomationService),
`src/automation/execution/action_engine.py` (ActionExecutionEngine),
`src/automation/workflow/workflow_engine.py` (WorkflowEngine) and
`src/automation/recommendation/recommendation_engine.py` (RecommendationEngine).

Modelling conventions:
- entity ids (UUIDs in the source) are `Nat`;
- timestamps (`datetime`) are `Int` seconds; the in-memory state carries one
  clock value `now` standing for `datetime.utcnow()` during one operation;
- `Decimal` amounts and metric values are `ℚ` (exact arithmetic);
- each repository (`BaseRepository`) is a `List` of records with
  get-by-id / update / create operations; fresh ids come from a `nextId`
  counter in the state;
- Python functions that can raise return `State × Except String α`: the
  state component is the (possibly already mutated) store contents at the
  moment the function returns or raises, matching the in-place mutation
  semantics of the source;
- opaque provider `details` payloads and the purely cosmetic timestamp
  rendering inside log strings are carried in simplified form (the log
  format keeps the exact surrounding text of the source f-strings).
-/

namespace CloudCrawl

/-! ## Dictionary and id-keyed store helpers -/

/-- Lookup in an insertion-ordered string-keyed dictionary (Python `dict.get`). -/
def dictGet {β : Type} (l : List (String × β)) (k : String) : Option β :=
  match l.find? (fun kv => kv.1 == k) with
  | some kv => some kv.2
  | none => none

/-- Insert/overwrite in an insertion-ordered string-keyed dictionary
(Python `d[k] = v`, on the duplicate-free key lists a `dict` yields): an
existing key is updated in place, a new key is appended. -/
def dictSet {β : Type} : List (String × β) → String → β →
    List (String × β)
  | [], k, v => [(k, v)]
  | kv :: rest, k, v =>
    if kv.1 == k then (k, v) :: rest else kv :: dictSet rest k v

/-- Records stored in an id-keyed repository. -/
class EntId (α : Type) where
  idOf : α → Nat

/-- `BaseRepository.get_by_id`. -/
def findById {α : Type} [EntId α] (l : List α) (i : Nat) : Option α :=
  l.find? (fun x => EntId.idOf x == i)

/-- `BaseRepository.update`: replace the record with the same id. -/
def updateById {α : Type} [EntId α] (l : List α) (a : α) : List α :=
  l.map (fun x => if EntId.idOf x == EntId.idOf a then a else x)

theorem findById_nil {α : Type} [EntId α] (i : Nat) :
    findById ([] : List α) i = none := rfl

theorem findById_cons {α : Type} [EntId α] (x : α) (xs : List α) (i : Nat) :
    findById (x :: xs) i =
      if EntId.idOf x = i then some x else findById xs i := by
  by_cases hx : EntId.idOf x = i
  · simp [findById, List.find?_cons_of_pos, hx]
  · have hx' : (EntId.idOf x == i) = false := by simp [hx]
    simp [findById, List.find?_cons_of_neg, hx', hx]

theorem updateById_cons {α : Type} [EntId α] (x : α) (xs : List α) (a : α) :
    updateById (x :: xs) a =
      (if EntId.idOf x = EntId.idOf a then a else x) :: updateById xs a := by
  by_cases hx : EntId.idOf x = EntId.idOf a
  · simp [updateById, hx]
  · have hx' : (EntId.idOf x == EntId.idOf a) = false := by simp [hx]
    simp [updateById, hx', hx]

theorem findById_updateById_self {α : Type} [EntId α] (l : List α) (a : α)
    (h : (findById l (EntId.idOf a)).isSome) :
    findById (updateById l a) (EntId.idOf a) = some a := by
  induction l with
  | nil => simp [findById_nil] at h
  | cons x xs ih =>
    by_cases hx : EntId.idOf x = EntId.idOf a
    · rw [updateById_cons]
      simp [findById_cons, hx]
    · rw [findById_cons] at h
      rw [updateById_cons]
      simp only [hx, if_false] at h ⊢
      rw [findById_cons]
      simp only [hx, if_false]
      exact ih h

theorem findById_updateById_ne {α : Type} [EntId α] (l : List α) (a : α)
    (i : Nat) (h : i ≠ EntId.idOf a) :
    findById (updateById l a) i = findById l i := by
  induction l with
  | nil => rfl
  | cons x xs ih =>
    rw [updateById_cons, findById_cons, findById_cons]
    by_cases hx : EntId.idOf x = EntId.idOf a
    · have hne : EntId.idOf a ≠ i := fun hc => h hc.symm
      simp [hx, hne, ih]
    · simp only [hx, if_false]
      by_cases hxi : EntId.idOf x = i
      · simp [hxi]
      · simp [hxi, ih]

theorem updateById_map_id {α : Type} [EntId α] (l : List α) (a : α) :
    (updateById l a).map EntId.idOf = l.map EntId.idOf := by
  induction l with
  | nil => rfl
  | cons x xs ih =>
    rw [updateById_cons]
    by_cases hx : EntId.idOf x = EntId.idOf a
    · simp [hx, ih]
    · simp [hx, ih]

theorem idOf_bound_updateById {α : Type} [EntId α] (l : List α) (a : α)
    (P : Nat → Prop) (h : ∀ x ∈ l, P (EntId.idOf x)) :
    ∀ x ∈ updateById l a, P (EntId.idOf x) := by
  intro x hx
  have hmem : EntId.idOf x ∈ (updateById l a).map EntId.idOf :=
    List.mem_map_of_mem _ hx
  rw [updateById_map_id] at hmem
  obtain ⟨y, hy, hyx⟩ := List.mem_map.mp hmem
  exact hyx ▸ h y hy

theorem findById_append_fresh {α : Type} [EntId α] (l : List α) (a : α)
    (h : ∀ x ∈ l, EntId.idOf x ≠ EntId.idOf a) :
    findById (l ++ [a]) (EntId.idOf a) = some a := by
  induction l with
  | nil => simp [findById_cons, findById_nil]
  | cons x xs ih =>
    rw [List.cons_append, findById_cons]
    have hx : EntId.idOf x ≠ EntId.idOf a := h x (List.mem_cons_self x xs)
    simp only [hx, if_false]
    exact ih (fun y hy => h y (List.mem_cons_of_mem x hy))

/-! ## JSON values and condition expressions

`WorkflowEngine._evaluate_condition` works on JSON-decoded Python values.
`JVal` is the value universe: strings, numbers (`ℚ`), booleans, `None`,
objects, and the literal placeholder strings
`\x7bprevious_step_result[i]\x7d` that the engine text-substitutes before
evaluation (constructor `prevRef`, kept structured so that the
substitution of `WorkflowEngine._execute_workflow_step` is expressible). -/

inductive JVal : Type where
  | s (v : String)
  | n (v : ℚ)
  | b (v : Bool)
  | null
  | arr (vs : List JVal)
  | obj (kvs : List (String × JVal))
  | prevRef (i : Nat)

/-- The literal text of a `prevRef` placeholder. -/
def prevRefText (i : Nat) : String :=
  "\x7bprevious_step_result[" ++ toString i ++ "]\x7d"

/-- Python numeric view: `bool` is an `int` (`True == 1`). -/
def jvalNum : JVal → Option ℚ
  | .n v => some v
  | .b v => some (if v then 1 else 0)
  | _ => none

/-- Python string view; an unsubstituted placeholder is just its text. -/
def jvalStr : JVal → Option String
  | .s v => some v
  | .prevRef i => some (prevRefText i)
  | _ => none

/-- Does `needle` occur as a contiguous run inside `hay`? -/
def listContainsRun (needle : List Char) : List Char → Bool
  | [] => needle.isEmpty
  | c :: rest => needle.isPrefixOf (c :: rest) || listContainsRun needle rest

/-- Check whether `needle` occurs as a contiguous substring (`in` on `str`). -/
def strContains (hay needle : String) : Bool :=
  listContainsRun needle.data hay.data

mutual
/-- Python `==` on JSON values: numbers compare across `bool`/number,
strings across placeholder text, lists elementwise, objects key-by-key
(an object stores each key once, so positional key lookup models `dict`
equality). -/
def jvalEq : JVal → JVal → Bool
  | l, r =>
    match jvalNum l, jvalNum r with
    | some a, some b => a == b
    | _, _ =>
      match jvalStr l, jvalStr r with
      | some a, some b => a == b
      | _, _ =>
        match l, r with
        | .null, .null => true
        | .arr la, .arr lb => jvalEqArr la lb
        | .obj la, .obj lb => jvalEqList la lb
        | _, _ => false

def jvalEqArr : List JVal → List JVal → Bool
  | [], [] => true
  | v :: rest, v' :: rest' => jvalEq v v' && jvalEqArr rest rest'
  | _, _ => false

def jvalEqList : List (String × JVal) → List (String × JVal) → Bool
  | [], [] => true
  | (k, v) :: rest, (k', v') :: rest' =>
    k == k' && jvalEq v v' && jvalEqList rest rest'
  | _, _ => false
end

mutual
/-- Python `left > right`: numbers and strings are ordered, lists compare
lexicographically, other combinations raise `TypeError` (propagated as an
exception). -/
def jvalGt (l r : JVal) : Except String Bool :=
  match jvalNum l, jvalNum r with
  | some a, some b => .ok (decide (b < a))
  | _, _ =>
    match jvalStr l, jvalStr r with
    | some a, some b => .ok (decide (b < a))
    | _, _ =>
      match l, r with
      | .arr la, .arr lb => jvalGtArr la lb
      | _, _ => .error "TypeError: unorderable types"

def jvalGtArr : List JVal → List JVal → Except String Bool
  | [], [] => .ok false
  | [], _ :: _ => .ok false
  | _ :: _, [] => .ok true
  | x :: xs, y :: ys => if jvalEq x y then jvalGtArr xs ys else jvalGt x y
end

mutual
/-- Python `left < right`. -/
def jvalLt (l r : JVal) : Except String Bool :=
  match jvalNum l, jvalNum r with
  | some a, some b => .ok (decide (a < b))
  | _, _ =>
    match jvalStr l, jvalStr r with
    | some a, some b => .ok (decide (a < b))
    | _, _ =>
      match l, r with
      | .arr la, .arr lb => jvalLtArr la lb
      | _, _ => .error "TypeError: unorderable types"

def jvalLtArr : List JVal → List JVal → Except String Bool
  | [], [] => .ok false
  | [], _ :: _ => .ok true
  | _ :: _, [] => .ok false
  | x :: xs, y :: ys => if jvalEq x y then jvalLtArr xs ys else jvalLt x y
end

/-- Python `right in left` as used by the `contains` operator: substring
for strings, element membership for lists, key membership for objects;
the source returns `False` for every other left operand (`isinstance`
check), and `in` on a string with a non-string right operand raises
`TypeError`. -/
def jvalContains (l r : JVal) : Except String Bool :=
  match jvalStr l with
  | some hay =>
    match jvalStr r with
    | some needle => .ok (strContains hay needle)
    | none => .error "TypeError: in requires string as left operand"
  | none =>
    match l with
    | .arr vs => .ok (vs.any (fun v => jvalEq v r))
    | .obj kvs =>
      match jvalStr r with
      | some k => .ok (kvs.any (fun kv => kv.1 == k))
      | none => .ok false
    | _ => .ok false

/-- Condition expression tree of `WorkflowEngine._evaluate_condition`:
a dict with an `operator` key and `left`/`right`/`conditions`/`condition`
operands; a missing operand key decodes to `null`, an unrecognized
operator falls through to `False` (`unknownOp`). -/
inductive Cond : Type where
  | equalsOp (left right : JVal)
  | notEqualsOp (left right : JVal)
  | greaterThanOp (left right : JVal)
  | lessThanOp (left right : JVal)
  | containsOp (left right : JVal)
  | andOp (conditions : List Cond)
  | orOp (conditions : List Cond)
  | notOp (condition : Cond)
  | unknownOp

mutual
/-- `WorkflowEngine._evaluate_condition`. -/
def evalCond : Cond → Except String Bool
  | .equalsOp l r => .ok (jvalEq l r)
  | .notEqualsOp l r => .ok (!jvalEq l r)
  | .greaterThanOp l r => jvalGt l r
  | .lessThanOp l r => jvalLt l r
  | .containsOp l r => jvalContains l r
  | .andOp cs => evalCondAll cs
  | .orOp cs => evalCondAny cs
  | .notOp c => do pure (!(← evalCond c))
  | .unknownOp => .ok false

def evalCondAll : List Cond → Except String Bool
  | [] => .ok true
  | c :: rest => do
    let b ← evalCond c
    if b then evalCondAll rest else pure false

def evalCondAny : List Cond → Except String Bool
  | [] => .ok false
  | c :: rest => do
    let b ← evalCond c
    if b then pure true else evalCondAny rest
end

mutual
/-- Does the JSON dump of a value mention a `previous_step_result`
placeholder (`'previous_step_result' in json.dumps(...)`)? -/
def jvalHasPrevRef : JVal → Bool
  | .prevRef _ => true
  | .s v => strContains v "previous_step_result"
  | .arr vs => jvalArrHasPrevRef vs
  | .obj kvs => jvalListHasPrevRef kvs
  | _ => false

def jvalArrHasPrevRef : List JVal → Bool
  | [] => false
  | v :: rest => jvalHasPrevRef v || jvalArrHasPrevRef rest

def jvalListHasPrevRef : List (String × JVal) → Bool
  | [] => false
  | (_, v) :: rest => jvalHasPrevRef v || jvalListHasPrevRef rest
end

mutual
def condHasPrevRef : Cond → Bool
  | .equalsOp l r | .notEqualsOp l r | .greaterThanOp l r
  | .lessThanOp l r | .containsOp l r => jvalHasPrevRef l || jvalHasPrevRef r
  | .andOp cs | .orOp cs => condListHasPrevRef cs
  | .notOp c => condHasPrevRef c
  | .unknownOp => false

def condListHasPrevRef : List Cond → Bool
  | [] => false
  | c :: rest => condHasPrevRef c || condListHasPrevRef rest
end

/-! ## Data model (`src/core/models/automation.py`) -/

structure Recommendation where
  id : Nat
  cloud_account_id : Nat
  resource_id : Option Nat := none
  recommendation_type : String
  status : String := "open"
  priority : String
  estimated_savings : Option ℚ := none
  savings_currency : Option String := none
  savings_period : String := "monthly"
  details : List (String × JVal) := []

/-- Result payload persisted on an `Action`/`ActionExecution`: either the
provider's result dict or the `error` dict built in the `except` branch. -/
inductive ExecPayload : Type where
  | provider (success : Bool) (message : String)
  | failure (error : String)
deriving Repr, DecidableEq

structure Action where
  id : Nat
  recommendation_id : Option Nat := none
  cloud_account_id : Nat
  resource_id : Option Nat := none
  action_type : String
  status : String := "pending"
  parameters : List (String × JVal) := []
  scheduled_time : Option Int := none
  executed_time : Option Int := none
  completed_time : Option Int := none
  created_by : Option Nat := none
  requires_approval : Bool := true
  approval_status : String := "pending"
  result : Option ExecPayload := none

structure ActionExecution where
  id : Nat
  action_id : Nat
  executor_id : Option Nat := none
  status : String := "in_progress"
  start_time : Int
  end_time : Option Int := none
  result : Option ExecPayload := none
  logs : Option String := none
  attempt : Nat := 1
deriving Repr, DecidableEq

/-- One workflow step (`Workflow.steps` JSON): a dict with a `type` tag.
`actionStep` carries `step.get('action_id')`, `conditionStep` carries
`step.get('condition')` with the optional branch indices, `delayStep`
carries `step.get('duration_seconds', 0)`; any other tag (including a
missing one) is `otherStep`. -/
inductive WStep : Type where
  | actionStep (action_id : Option Nat)
  | conditionStep (condition : Option Cond)
      (true_branch false_branch : Option Nat)
  | delayStep (duration_seconds : Nat)
  | otherStep (tag : Option String)

/-- Scheduling config blob nested under `trigger_config['schedule']`. -/
structure Schedule where
  cron : Option String := none
  time : Option Int := none
  interval_hours : Option ℚ := none
  last_execution : Option Int := none
deriving Repr, DecidableEq

/-- `Workflow.trigger_config`: an opaque JSON blob.  The engine reads only
its `schedule` key; the same timing fields may also sit at the top level
(the shape §6 of the spec describes), where the engine never looks. -/
structure TriggerConfig where
  schedule : Option Schedule := none
  cron : Option String := none
  time : Option Int := none
  interval_hours : Option ℚ := none
  last_execution : Option Int := none
deriving Repr, DecidableEq

structure Workflow where
  id : Nat
  organization_id : Nat
  name : String
  description : Option String := none
  trigger_type : String
  trigger_config : Option TriggerConfig := none
  steps : List WStep
  status : String := "active"

/-- Result of one workflow step as recorded in
`WorkflowExecution.results["step_i"]` (the dicts returned by
`WorkflowEngine._execute_workflow_step`). -/
structure StepResult where
  status : String
  message : String
  action_id : Option Nat := none
  condition_result : Option Bool := none
  duration_seconds : Option Nat := none

/-- An entry of the `WorkflowExecution.results` dict: a step result, or
the free-form text stored under `cancellation_reason`. -/
inductive ResEntry : Type where
  | step (r : StepResult)
  | txt (v : Option String)

structure WorkflowExecution where
  id : Nat
  workflow_id : Nat
  initiator_id : Option Nat := none
  status : String := "in_progress"
  start_time : Int
  end_time : Option Int := none
  results : List (String × ResEntry) := []

/-- Resource record (`src/core/models/resource.py`), restricted to the
fields the automation subsystem reads. `tags` holds the tag keys,
`properties` the sizing properties consulted by the price tables. -/
structure Resource where
  id : Nat
  cloud_account_id : Nat
  resource_id : String
  resource_type : String
  name : String
  status : String
  tags : List String := []
  properties : List (String × String) := []
deriving Repr, DecidableEq

/-- Cost record (`src/core/models/cost.py`); the anomaly heuristic only
reads `timestamp.date()`, modelled as the day number `day`. -/
structure CostData where
  id : Nat
  cloud_account_id : Nat
  day : Nat
  amount : ℚ
  currency : String
deriving Repr, DecidableEq

instance : EntId Recommendation := ⟨Recommendation.id⟩
instance : EntId Action := ⟨Action.id⟩
instance : EntId ActionExecution := ⟨ActionExecution.id⟩
instance : EntId Workflow := ⟨Workflow.id⟩
instance : EntId WorkflowExecution := ⟨WorkflowExecution.id⟩
instance : EntId Resource := ⟨Resource.id⟩

/-! ## Persisted state and AutomationService
(`src/core/services/automation_service.py`) -/

/-- The contents of the repositories injected into `AutomationService`,
`ResourceService` and `CostService`, plus the id-allocation counter and
the current clock value. `accounts` holds the ids of existing cloud
accounts (the workflow engine checks `action.cloud_account` exists). -/
structure State where
  recommendations : List Recommendation := []
  actions : List Action := []
  actionExecutions : List ActionExecution := []
  workflows : List Workflow := []
  workflowExecutions : List WorkflowExecution := []
  resources : List Resource := []
  costData : List CostData := []
  accounts : List Nat := []
  nextId : Nat := 0
  now : Int := 0

/-- `AutomationService.get_recommendation`. -/
def getRecommendation (s : State) (rid : Nat) : Option Recommendation :=
  findById s.recommendations rid

/-- `AutomationService.get_action`. -/
def getAction (s : State) (aid : Nat) : Option Action :=
  findById s.actions aid

/-- `ResourceService.get_resource` (a plain repository `get_by_id`). -/
def getResource (s : State) (rid : Nat) : Option Resource :=
  findById s.resources rid

def findActionExecution (s : State) (eid : Nat) : Option ActionExecution :=
  findById s.actionExecutions eid

def getWorkflowById (s : State) (wid : Nat) : Option Workflow :=
  findById s.workflows wid

def findWorkflowExecution (s : State) (eid : Nat) : Option WorkflowExecution :=
  findById s.workflowExecutions eid

/-- `AutomationService.create_recommendation`: persists with
`status='open'` and a fresh id. -/
def createRecommendation (s : State) (cloud_account_id : Nat)
    (recommendation_type : String) (priority : String)
    (estimated_savings : Option ℚ) (savings_currency : Option String)
    (savings_period : String) (resource_id : Option Nat)
    (details : List (String × JVal)) : Recommendation × State :=
  let r : Recommendation :=
    { id := s.nextId
      cloud_account_id := cloud_account_id
      resource_id := resource_id
      recommendation_type := recommendation_type
      priority := priority
      estimated_savings := estimated_savings
      savings_currency := savings_currency
      savings_period := savings_period
      details := details
      status := "open" }
  (r, { s with recommendations := s.recommendations ++ [r],
               nextId := s.nextId + 1 })

/-- `AutomationService.update_recommendation_status`: looks the record up
and overwrites `status` with the requested value, unconditionally. -/
def updateRecommendationStatus (s : State) (rid : Nat) (status : String) :
    State × Except String Recommendation :=
  match getRecommendation s rid with
  | none =>
    (s, .error ("Recommendation with ID " ++ toString rid ++ " not found"))
  | some r =>
    let r' := { r with status := status }
    ({ s with recommendations := updateById s.recommendations r' }, .ok r')

/-- `AutomationService.create_action`: persists with `status='pending'`
and `approval_status` `'pending'` when approval is required, else
`'approved'`. -/
def createAction (s : State) (cloud_account_id : Nat) (action_type : String)
    (parameters : List (String × JVal)) (recommendation_id : Option Nat)
    (resource_id : Option Nat) (created_by : Option Nat)
    (requires_approval : Bool) (scheduled_time : Option Int) :
    Action × State :=
  let a : Action :=
    { id := s.nextId
      cloud_account_id := cloud_account_id
      recommendation_id := recommendation_id
      resource_id := resource_id
      action_type := action_type
      parameters := parameters
      created_by := created_by
      requires_approval := requires_approval
      scheduled_time := scheduled_time
      status := "pending"
      approval_status := if requires_approval then "pending" else "approved" }
  (a, { s with actions := s.actions ++ [a], nextId := s.nextId + 1 })

/-- `AutomationService.execute_action`: gate checks, then flips the Action
to `in_progress` and opens a fresh `in_progress` `ActionExecution`. -/
def svcExecuteAction (s : State) (aid : Nat) (executor_id : Option Nat) :
    State × Except String ActionExecution :=
  match getAction s aid with
  | none => (s, .error ("Action with ID " ++ toString aid ++ " not found"))
  | some a =>
    if a.requires_approval && !(a.approval_status == "approved") then
      (s, .error ("Action with ID " ++ toString aid ++
        " requires approval before execution"))
    else if !(a.status == "pending" || a.status == "failed") then
      (s, .error ("Action with ID " ++ toString aid ++
        " cannot be executed in status " ++ a.status))
    else
      let a' := { a with status := "in_progress", executed_time := some s.now }
      let s1 := { s with actions := updateById s.actions a' }
      let ex : ActionExecution :=
        { id := s1.nextId
          action_id := aid
          executor_id := executor_id
          status := "in_progress"
          start_time := s1.now }
      ({ s1 with actionExecutions := s1.actionExecutions ++ [ex],
                 nextId := s1.nextId + 1 }, .ok ex)

/-- The trailing block of `AutomationService.complete_action_execution`:
if the Action came from a Recommendation and the run completed, flip that
Recommendation `open → applied` (a missing or non-open Recommendation is
left alone). -/
def completeRecUpdate (s : State) (a : Action) (status : String) : State :=
  match a.recommendation_id with
  | some rid =>
    if status == "completed" then
      match getRecommendation s rid with
      | some r =>
        if r.status == "open" then
          { s with recommendations :=
              updateById s.recommendations { r with status := "applied" } }
        else s
      | none => s
    else s
  | none => s

/-- `AutomationService.complete_action_execution`: closes the execution
record, copies the status onto the Action, and flips the originating
Recommendation `open → applied` on a completed run. A missing Action row
is the `AttributeError` Python would raise after the execution record was
already updated. -/
def completeActionExecution (s : State) (eid : Nat) (status : String)
    (result : Option ExecPayload) (logs : Option String) :
    State × Except String ActionExecution :=
  match findActionExecution s eid with
  | none =>
    (s, .error ("Action execution with ID " ++ toString eid ++ " not found"))
  | some ex =>
    if !(ex.status == "in_progress") then
      (s, .error ("Action execution with ID " ++ toString eid ++
        " is not in progress"))
    else
      let ex' := { ex with status := status, end_time := some s.now,
                           result := result, logs := logs }
      let s1 := { s with actionExecutions := updateById s.actionExecutions ex' }
      match getAction s1 ex.action_id with
      | none => (s1, .error "AttributeError: NoneType has no attribute status")
      | some a =>
        let a' := { a with status := status, completed_time := some s1.now,
                           result := result }
        let s2 := { s1 with actions := updateById s1.actions a' }
        (completeRecUpdate s2 a status, .ok ex')

/-- `AutomationService.execute_workflow`: checks the Workflow exists and
is active, then opens a fresh `in_progress` `WorkflowExecution`. -/
def svcExecuteWorkflow (s : State) (wid : Nat) (initiator_id : Option Nat) :
    State × Except String WorkflowExecution :=
  match getWorkflowById s wid with
  | none => (s, .error ("Workflow with ID " ++ toString wid ++ " not found"))
  | some w =>
    if !(w.status == "active") then
      (s, .error ("Workflow with ID " ++ toString wid ++ " is not active"))
    else
      let ex : WorkflowExecution :=
        { id := s.nextId
          workflow_id := wid
          initiator_id := initiator_id
          status := "in_progress"
          start_time := s.now }
      ({ s with workflowExecutions := s.workflowExecutions ++ [ex],
                nextId := s.nextId + 1 }, .ok ex)

/-- Outcome of `AutomationService.process_workflow_step`: the
`{"status": "completed"}` dict, or the continue dict carrying
`next_step_index` and the next step. -/
inductive NextStep : Type where
  | done
  | cont (next_step_index : Nat) (next_step : WStep)

/-- `AutomationService.process_workflow_step`: persists the step result
into `results["step_i"]`, then either closes the execution (when `i` is
the last index) or returns `i + 1` and the step stored there.  The
comparison `step_index >= len(steps) - 1` on Python ints is
`len(steps) <= i + 1` on naturals. -/
def processWorkflowStep (s : State) (eid : Nat) (step_index : Nat)
    (step_result : Option StepResult) : State × Except String NextStep :=
  match findWorkflowExecution s eid with
  | none =>
    (s, .error ("Workflow execution with ID " ++ toString eid ++
      " not found"))
  | some ex =>
    if !(ex.status == "in_progress") then
      (s, .error ("Workflow execution with ID " ++ toString eid ++
        " is not in progress"))
    else
      match getWorkflowById s ex.workflow_id with
      | none => (s, .error "AttributeError: NoneType has no attribute steps")
      | some w =>
        let (s1, ex1) :=
          match step_result with
          | some r =>
            let res' :=
              dictSet ex.results ("step_" ++ toString step_index)
                (ResEntry.step r)
            let ex' := { ex with results := res' }
            let ws' := updateById s.workflowExecutions ex'
            ({ s with workflowExecutions := ws' }, ex')
          | none => (s, ex)
        if w.steps.length ≤ step_index + 1 then
          let ex2 :=
            { ex1 with status := "completed", end_time := some s1.now }
          let ws2 := updateById s1.workflowExecutions ex2
          ({ s1 with workflowExecutions := ws2 }, .ok .done)
        else
          match w.steps.get? (step_index + 1) with
          | some st => (s1, .ok (.cont (step_index + 1) st))
          | none => (s1, .error "IndexError: list index out of range")

/-- `AutomationService.cancel_workflow_execution`: flips an in-progress
execution to `cancelled` and records the reason under
`results["cancellation_reason"]`. -/
def cancelWorkflowExecution (s : State) (eid : Nat) (reason : Option String) :
    State × Except String WorkflowExecution :=
  match findWorkflowExecution s eid with
  | none =>
    (s, .error ("Workflow execution with ID " ++ toString eid ++
      " not found"))
  | some ex =>
    if !(ex.status == "in_progress") then
      (s, .error ("Workflow execution with ID " ++ toString eid ++
        " is not in progress"))
    else
      let res' := dictSet ex.results "cancellation_reason" (ResEntry.txt reason)
      let ex' :=
        { ex with status := "cancelled", end_time := some s.now,
                  results := res' }
      ({ s with workflowExecutions := updateById s.workflowExecutions ex' },
       .ok ex')

/-! ## Provider adapter boundary (`src/providers/base.py`)

`CloudProviderInterface` is an external collaborator; a `Provider` value
captures the behaviour of its calls during one engine operation. -/

/-- Behaviour of one `provider.execute_action` call: the returned result
dict (read through `.get('success', False)` / `.get('message', '')`), or
a raised exception. -/
inductive ProviderOutcome : Type where
  | ok (success : Bool) (message : String)
  | raised (msg : String)

/-- One metric datapoint as shaped by the provider adapters
(`point.get('average', 0)` treats a missing/None average as `0`). -/
structure Datapoint where
  average : Option ℚ := none
deriving Repr, DecidableEq

structure MetricSeries where
  datapoints : List Datapoint
deriving Repr, DecidableEq

/-- A provider-native recommendation dict from
`provider.get_recommendations()`. -/
structure ProviderRec where
  pid : Option String := none
  ptype : String
  description : Option String := none
  estimated_savings : Option ℚ := none
  savings_currency : Option String := none
  savings_period : Option String := none
  resource_id : Option Nat := none

structure Provider where
  execAction : String → Option String → Option String →
    List (String × JVal) → ProviderOutcome
  getMetrics : String → String → List (String × MetricSeries)
  getRecommendations : Except String (List ProviderRec)

/-! ## ActionExecutionEngine (`src/automation/execution/action_engine.py`) -/

/-- `ActionExecutionEngine._map_to_provider_action`: nested lookup table
from (resource type, internal action type) to the provider verb; unmapped
combinations fall through to the internal action type. -/
def mapToProviderAction (action_type : String)
    (resource_type : Option String) : String :=
  match resource_type with
  | some "ec2_instance" =>
    if action_type == "start_resource" then "start_instance"
    else if action_type == "stop_resource" then "stop_instance"
    else if action_type == "resize_resource" then "resize_instance"
    else if action_type == "delete_resource" then "terminate_instance"
    else action_type
  | some "rds_instance" =>
    if action_type == "start_resource" then "start_instance"
    else if action_type == "stop_resource" then "stop_instance"
    else if action_type == "resize_resource" then "resize_instance"
    else if action_type == "delete_resource" then "delete_instance"
    else action_type
  | some "s3_bucket" =>
    if action_type == "delete_resource" then "delete_bucket"
    else if action_type == "optimize_storage" then "update_lifecycle"
    else action_type
  | some "virtual_machine" =>
    if action_type == "start_resource" then "start_vm"
    else if action_type == "stop_resource" then "stop_vm"
    else if action_type == "resize_resource" then "resize_vm"
    else if action_type == "delete_resource" then "delete_vm"
    else action_type
  | some "storage_account" =>
    if action_type == "optimize_storage" then "update_tier"
    else if action_type == "delete_resource" then "delete_storage_account"
    else action_type
  | some "compute_instance" =>
    if action_type == "start_resource" then "start_instance"
    else if action_type == "stop_resource" then "stop_instance"
    else if action_type == "resize_resource" then "resize_instance"
    else if action_type == "delete_resource" then "delete_instance"
    else action_type
  | some "storage_bucket" =>
    if action_type == "delete_resource" then "delete_bucket"
    else if action_type == "optimize_storage" then "update_storage_class"
    else action_type
  | _ => action_type

/-- The result dict returned by `ActionExecutionEngine.execute_action`. -/
structure EngResult where
  action_id : Nat
  execution_id : Nat
  status : String
  message : String

/-- The `except Exception` branch of
`ActionExecutionEngine.execute_action`: close the execution record as
`failed` with the error text in the log, and return the failure result.
If `complete_action_execution` itself raises here, the exception leaves
the engine. -/
def engineHandleError (s : State) (aid eid : Nat) (e : String) :
    State × Except String EngResult :=
  let emsg := "Error executing action: " ++ e
  let logs := "Action execution failed at " ++ toString s.now ++
    "\nError: " ++ emsg
  match completeActionExecution s eid "failed" (some (.failure e)) logs with
  | (s1, .error m) => (s1, .error m)
  | (s1, .ok _) =>
    (s1, .ok { action_id := aid, execution_id := eid, status := "failed",
               message := emsg })

/-- `ActionExecutionEngine.execute_action`: approval gate, execution
record, resource lookup, provider call, completion bookkeeping and
recommendation update, with the `try/except` conversion of any exception
raised after the execution record was opened. -/
def engineExecuteAction (s : State) (aid : Nat) (p : Provider)
    (executor_id : Option Nat) : State × Except String EngResult :=
  match getAction s aid with
  | none => (s, .error ("Action with ID " ++ toString aid ++ " not found"))
  | some action =>
    if action.requires_approval && !(action.approval_status == "approved")
    then
      (s, .error ("Action with ID " ++ toString aid ++
        " requires approval before execution"))
    else
      match svcExecuteAction s aid executor_id with
      | (s1, .error m) => (s1, .error m)
      | (s1, .ok execu) =>
        let rinfo : Option String × Option String :=
          match action.resource_id with
          | some rid =>
            match getResource s1 rid with
            | some r => (some r.resource_id, some r.resource_type)
            | none => (none, none)
          | none => (none, none)
        let provider_action := mapToProviderAction action.action_type rinfo.2
        match p.execAction provider_action rinfo.1 rinfo.2
          (action.parameters) with
        | .raised e => engineHandleError s1 aid execu.id e
        | .ok success message =>
          let status := if success then "completed" else "failed"
          let logs := "Action executed at " ++ toString s1.now ++
            "\nResult: " ++ message
          match completeActionExecution s1 execu.id status
            (some (.provider success message)) logs with
          | (s2, .error m) => engineHandleError s2 aid execu.id m
          | (s2, .ok _) =>
            match action.recommendation_id with
            | some rid =>
              if status == "completed" then
                match updateRecommendationStatus s2 rid "applied" with
                | (s3, .error m) => engineHandleError s3 aid execu.id m
                | (s3, .ok _) =>
                  (s3, .ok { action_id := aid, execution_id := execu.id,
                             status := status, message := message })
              else
                (s2, .ok { action_id := aid, execution_id := execu.id,
                           status := status, message := message })
            | none =>
              (s2, .ok { action_id := aid, execution_id := execu.id,
                         status := status, message := message })

/-- Modelled from the spec: `ActionExecutionEngine.process_scheduled_actions`
calls `self.automation_service.get_actions_by_status('pending')`, a method
`AutomationService` does not define; §6 of the spec says persistence
offers filter-by-equality for every entity, so the getter is the status
filter over the Action repository. -/
def getActionsByStatus (s : State) (status : String) : List Action :=
  s.actions.filter (fun a => a.status == status)

/-- The scan loop of `ActionExecutionEngine.process_scheduled_actions`
over the snapshot list: execute each action whose `scheduled_time` is set
and `<= now` (the truthiness test `action.scheduled_time and ...` skips
an unset time); an exception raised by `execute_action` propagates. -/
def processScheduledActionsGo (p : Provider) :
    State → List Action → List EngResult →
    State × Except String (List EngResult)
  | s, [], acc => (s, .ok acc)
  | s, a :: rest, acc =>
    match a.scheduled_time with
    | some t =>
      if t ≤ s.now then
        match engineExecuteAction s a.id p none with
        | (s1, .error m) => (s1, .error m)
        | (s1, .ok r) => processScheduledActionsGo p s1 rest (acc ++ [r])
      else processScheduledActionsGo p s rest acc
    | none => processScheduledActionsGo p s rest acc

/-- `ActionExecutionEngine.process_scheduled_actions`. -/
def processScheduledActions (s : State) (p : Provider) :
    State × Except String (List EngResult) :=
  processScheduledActionsGo p s (getActionsByStatus s "pending") []

/-! ## WorkflowEngine (`src/automation/workflow/workflow_engine.py`) -/

/-- Modelled from the spec: `WorkflowEngine.execute_workflow` calls
`self.automation_service.get_workflow(workflow_id)`, a method
`AutomationService` does not define; §6 of the spec says persistence
offers get-by-id for every entity. -/
def getWorkflow (s : State) (wid : Nat) : Option Workflow :=
  getWorkflowById s wid

/-- Modelled from the spec: `WorkflowEngine._execute_workflow_step` calls
`self.automation_service.get_workflow_execution(execution_id)`, a method
`AutomationService` does not define; §6 of the spec says persistence
offers get-by-id for every entity. -/
def getWorkflowExecution (s : State) (eid : Nat) : Option WorkflowExecution :=
  findWorkflowExecution s eid

/-- Modelled from the spec: `WorkflowEngine.process_scheduled_workflows`
calls `self.automation_service.get_workflows_by_trigger_type('scheduled')`,
a method `AutomationService` does not define; §4.3 of the spec scopes the
scan to "every active Workflow with `trigger_type == scheduled`", and §6
provides filter-by-equality. -/
def getWorkflowsByTriggerType (s : State) (trigger_type : String) :
    List Workflow :=
  s.workflows.filter
    (fun w => w.status == "active" && w.trigger_type == trigger_type)

/-- JSON rendering of a recorded step result, the value that
`json.dumps(execution.results["step_i"])` substitutes for a
`previous_step_result` placeholder. -/
def stepResultToJVal (r : StepResult) : JVal :=
  .obj ([("status", JVal.s r.status), ("message", JVal.s r.message)] ++
    (match r.action_id with
     | some a => [("action_id", JVal.n a)]
     | none => []) ++
    (match r.condition_result with
     | some b => [("condition_result", JVal.b b)]
     | none => []) ++
    (match r.duration_seconds with
     | some d => [("duration_seconds", JVal.n d)]
     | none => []))

def resEntryToJVal : ResEntry → JVal
  | .step r => stepResultToJVal r
  | .txt (some v) => .s v
  | .txt none => .null

mutual
/-- The placeholder substitution of
`WorkflowEngine._execute_workflow_step`, modelled structurally: each
`previous_step_result[i]` placeholder with `i < step_index` whose
`step_i` key is recorded is replaced by the JSON of the recorded result
(the source performs the same replacement textually on the JSON dump). -/
def substJVal (results : List (String × ResEntry)) (step_index : Nat) :
    JVal → JVal
  | .prevRef i =>
    if i < step_index then
      match dictGet results ("step_" ++ toString i) with
      | some e => resEntryToJVal e
      | none => .prevRef i
    else .prevRef i
  | .arr vs => .arr (substJValArr results step_index vs)
  | .obj kvs => .obj (substJValList results step_index kvs)
  | v => v

def substJValArr (results : List (String × ResEntry)) (step_index : Nat) :
    List JVal → List JVal
  | [] => []
  | v :: rest =>
    substJVal results step_index v :: substJValArr results step_index rest

def substJValList (results : List (String × ResEntry)) (step_index : Nat) :
    List (String × JVal) → List (String × JVal)
  | [] => []
  | (k, v) :: rest =>
    (k, substJVal results step_index v) :: substJValList results step_index rest
end

mutual
def substCond (results : List (String × ResEntry)) (step_index : Nat) :
    Cond → Cond
  | .equalsOp l r =>
    .equalsOp (substJVal results step_index l) (substJVal results step_index r)
  | .notEqualsOp l r =>
    .notEqualsOp (substJVal results step_index l)
      (substJVal results step_index r)
  | .greaterThanOp l r =>
    .greaterThanOp (substJVal results step_index l)
      (substJVal results step_index r)
  | .lessThanOp l r =>
    .lessThanOp (substJVal results step_index l)
      (substJVal results step_index r)
  | .containsOp l r =>
    .containsOp (substJVal results step_index l)
      (substJVal results step_index r)
  | .andOp cs => .andOp (substCondList results step_index cs)
  | .orOp cs => .orOp (substCondList results step_index cs)
  | .notOp c => .notOp (substCond results step_index c)
  | .unknownOp => .unknownOp

def substCondList (results : List (String × ResEntry)) (step_index : Nat) :
    List Cond → List Cond
  | [] => []
  | c :: rest =>
    substCond results step_index c :: substCondList results step_index rest
end

/-- `WorkflowEngine._execute_workflow_step`. An exception raised by
`execute_action` (or a `TypeError` from condition evaluation) propagates
to the `try` of `execute_workflow`. -/
def executeWorkflowStep (s : State) (step : WStep)
    (provider_map : List (Nat × Provider)) (execution_id : Nat)
    (step_index : Nat) : State × Except String StepResult :=
  match step with
  | .actionStep action_id =>
    match action_id with
    | none =>
      (s, .ok { status := "failed",
                message := "Missing action_id in workflow step" })
    | some aid =>
      match getAction s aid with
      | none =>
        (s, .ok { status := "failed",
                  message := "Action with ID " ++ toString aid ++
                    " not found" })
      | some action =>
        if !(s.accounts.contains action.cloud_account_id) then
          (s, .ok { status := "failed",
                    message := "Cloud account not found for action " ++
                      toString aid })
        else
          match (provider_map.find?
              (fun kv => kv.1 == action.cloud_account_id)) with
          | none =>
            (s, .ok { status := "failed",
                      message := "Provider not found for cloud account " ++
                        toString action.cloud_account_id })
          | some kv =>
            match engineExecuteAction s aid kv.2 none with
            | (s1, .error m) => (s1, .error m)
            | (s1, .ok r) =>
              (s1, .ok { status := r.status, action_id := some aid,
                         message := r.message })
  | .conditionStep condition _ _ =>
    match condition with
    | none =>
      (s, .ok { status := "failed",
                message := "Missing condition in workflow step" })
    | some c =>
      let resolve : State × Except String Cond :=
        if condHasPrevRef c then
          match getWorkflowExecution s execution_id with
          | none =>
            (s, .ok c)    -- dead branch: guarded by the failure test below
          | some ex =>
            if ex.results.isEmpty then (s, .ok c)
            else (s, .ok (substCond ex.results step_index c))
        else (s, .ok c)
      if condHasPrevRef c &&
          (match getWorkflowExecution s execution_id with
           | none => true
           | some ex => ex.results.isEmpty) then
        (s, .ok { status := "failed",
                  message :=
                    "Cannot evaluate condition: no previous step results available" })
      else
        match resolve with
        | (s1, .ok c') =>
          match evalCond c' with
          | .error e => (s1, .error e)
          | .ok b =>
            (s1, .ok { status := "completed", condition_result := some b,
                       message := "Condition evaluated to " ++
                         (if b then "True" else "False") })
        | (s1, .error e) => (s1, .error e)
  | .delayStep duration_seconds =>
    (s, .ok { status := "completed",
              message := "Delayed execution for " ++
                toString duration_seconds ++ " seconds",
              duration_seconds := some duration_seconds })
  | .otherStep tag =>
    (s, .ok { status := "failed",
              message := "Unsupported step type: " ++
                (match tag with | some t => t | none => "None") })

/-- The workflow result dict returned by
`WorkflowEngine.execute_workflow`. -/
structure WfResult where
  workflow_id : Nat
  execution_id : Nat
  status : String
  message : String
  steps_results : List StepResult
  failed_step : Option Nat := none

/-- The `except Exception` branch of `WorkflowEngine.execute_workflow`:
cancel the execution with the error text and return the failure result
(whose `steps_results` is still the initial empty list). If the
cancellation itself raises, the exception leaves the engine. -/
def wfHandleError (s : State) (wid eid : Nat) (e : String) :
    State × Except String WfResult :=
  let emsg := "Error executing workflow: " ++ e
  match cancelWorkflowExecution s eid (some emsg) with
  | (s1, .error m) => (s1, .error m)
  | (s1, .ok _) =>
    (s1, .ok { workflow_id := wid, execution_id := eid, status := "failed",
               message := emsg, steps_results := [] })

/-- The `while current_step < len(steps)` loop of
`WorkflowEngine.execute_workflow`, with the step counter driven by the
`next_step_index` returned from `process_workflow_step`. `fuel` bounds
the recursion; every recursive call is made with `next_step_index =
current + 1`, so `steps.length + 1` fuel is never exhausted. -/
def runSteps (wf : Workflow) (provider_map : List (Nat × Provider))
    (eid : Nat) :
    Nat → State → Nat → List StepResult → State × Except String WfResult
  | fuel, s, current, acc =>
    match wf.steps.get? current with
    | none =>
      (s, .ok { workflow_id := wf.id, execution_id := eid,
                status := "completed",
                message := "Workflow completed successfully",
                steps_results := acc })
    | some step =>
      match executeWorkflowStep s step provider_map eid current with
      | (s1, .error e) => wfHandleError s1 wf.id eid e
      | (s1, .ok sr) =>
        let acc1 := acc ++ [sr]
        if !(sr.status == "completed") then
          match cancelWorkflowExecution s1 eid
            (some ("Step " ++ toString current ++ " failed: " ++
              sr.message)) with
          | (s2, .error m) => wfHandleError s2 wf.id eid m
          | (s2, .ok _) =>
            (s2, .ok { workflow_id := wf.id, execution_id := eid,
                       status := "failed",
                       message := "Workflow failed at step " ++
                         toString current ++ ": " ++ sr.message,
                       steps_results := acc1,
                       failed_step := some current })
        else
          match processWorkflowStep s1 eid current (some sr) with
          | (s2, .error e) => wfHandleError s2 wf.id eid e
          | (s2, .ok .done) =>
            (s2, .ok { workflow_id := wf.id, execution_id := eid,
                       status := "completed",
                       message := "Workflow completed successfully",
                       steps_results := acc1 })
          | (s2, .ok (.cont next _)) =>
            match fuel with
            | 0 => (s2, .error "fuel exhausted")
            | fuel' + 1 => runSteps wf provider_map eid fuel' s2 next acc1

/-- `WorkflowEngine.execute_workflow`. -/
def wfExecuteWorkflow (s : State) (wid : Nat)
    (provider_map : List (Nat × Provider)) (initiator_id : Option Nat) :
    State × Except String WfResult :=
  match svcExecuteWorkflow s wid initiator_id with
  | (s1, .error m) => (s1, .error m)
  | (s1, .ok execu) =>
    match getWorkflow s1 wid with
    | none =>
      wfHandleError s1 wid execu.id
        ("Workflow with ID " ++ toString wid ++ " not found")
    | some wf =>
      runSteps wf provider_map execu.id (wf.steps.length + 1) s1 0 []

/-- `WorkflowEngine._should_execute_workflow`: a `cron` key is always due
(cron matching is not implemented in the source); a `time` key is due when
`now` is within 5 minutes (300 seconds) either side of it; an
`interval_hours` key is due when the hours elapsed since `last_execution`
reach the interval, or always when no `last_execution` is recorded. -/
def shouldExecuteWorkflow (schedule : Schedule) (now : Int) : Bool :=
  match schedule.cron with
  | some _ => true
  | none =>
    match schedule.time with
    | some t => |now - t| ≤ 300
    | none =>
      match schedule.interval_hours with
      | some ih =>
        match schedule.last_execution with
        | none => true
        | some last => ih ≤ ((now - last : Int) : ℚ) / 3600
      | none => false

/-- The scan loop of `WorkflowEngine.process_scheduled_workflows` over the
snapshot list: skip workflows whose `trigger_config` has no (non-empty)
`schedule` entry, execute the due ones; an exception raised by
`execute_workflow` propagates. -/
def processScheduledWorkflowsGo (provider_map : List (Nat × Provider)) :
    State → List Workflow → List WfResult →
    State × Except String (List WfResult)
  | s, [], acc => (s, .ok acc)
  | s, w :: rest, acc =>
    let schedule :=
      match w.trigger_config with
      | some cfg => cfg.schedule
      | none => none
    match schedule with
    | none => processScheduledWorkflowsGo provider_map s rest acc
    | some sch =>
      if shouldExecuteWorkflow sch s.now then
        match wfExecuteWorkflow s w.id provider_map none with
        | (s1, .error m) => (s1, .error m)
        | (s1, .ok r) =>
          processScheduledWorkflowsGo provider_map s1 rest (acc ++ [r])
      else processScheduledWorkflowsGo provider_map s rest acc

/-- `WorkflowEngine.process_scheduled_workflows`. -/
def processScheduledWorkflows (s : State)
    (provider_map : List (Nat × Provider)) :
    State × Except String (List WfResult) :=
  processScheduledWorkflowsGo provider_map s
    (getWorkflowsByTriggerType s "scheduled") []

/-! ## RecommendationEngine
(`src/automation/recommendation/recommendation_engine.py`) -/

/-- `RecommendationEngine._map_recommendation_type`. -/
def mapRecommendationType (provider_type : String) : String :=
  let t := provider_type.toLower
  if t == "rightsizing" then "resize_resource"
  else if t == "reservation" then "purchase_reservation"
  else if t == "idle" then "idle_resource"
  else if t == "machine_type" then "resize_resource"
  else if t == "azure_advisor" then "general_optimization"
  else "general_optimization"

/-- `RecommendationEngine._determine_priority`: start at `medium`, raise
to `high` above savings of 100 and lower to `low` below 10, then override
to `high` whenever the provider type is `idle`. -/
def determinePriority (r : ProviderRec) : String :=
  let priority := "medium"
  let priority :=
    match r.estimated_savings with
    | some savings =>
      if savings > 100 then "high"
      else if savings < 10 then "low"
      else priority
    | none => priority
  if r.ptype == "idle" then "high" else priority

/-- `RecommendationEngine._estimate_resource_cost`: static monthly price
tables keyed by sizing property, with per-family fallback prices. -/
def estimateResourceCost (r : Resource) : ℚ :=
  if r.resource_type == "ec2_instance" then
    let t := (dictGet r.properties "instance_type").getD "t3.micro"
    if t == "t3.micro" then 85/10
    else if t == "t3.small" then 17
    else if t == "t3.medium" then 34
    else if t == "t3.large" then 68
    else if t == "t3.xlarge" then 136
    else if t == "t3.2xlarge" then 272
    else if t == "m5.large" then 77
    else if t == "m5.xlarge" then 154
    else if t == "m5.2xlarge" then 308
    else if t == "m5.4xlarge" then 616
    else 30
  else if r.resource_type == "virtual_machine" then
    let t := (dictGet r.properties "vm_size").getD "Standard_B1s"
    if t == "Standard_B1s" then 876/100
    else if t == "Standard_B2s" then 3504/100
    else if t == "Standard_D2s_v3" then 7008/100
    else if t == "Standard_D4s_v3" then 14016/100
    else if t == "Standard_E2s_v3" then 876/10
    else if t == "Standard_E4s_v3" then 1752/10
    else 40
  else if r.resource_type == "compute_instance" then
    let t := (dictGet r.properties "machine_type").getD "e2-micro"
    if t == "e2-micro" then 76/10
    else if t == "e2-small" then 152/10
    else if t == "e2-medium" then 304/10
    else if t == "n1-standard-1" then 25
    else if t == "n1-standard-2" then 50
    else if t == "n1-standard-4" then 100
    else if t == "n1-standard-8" then 200
    else 30
  else 10

/-- One entry of the list built by
`RecommendationEngine._identify_idle_resources`. -/
structure IdleEntry where
  resource_id : Nat
  resource_type : String
  resource_name : String
  estimated_savings : ℚ
  savings_currency : String
  avg_cpu_utilization : ℚ
  suggested_action : String
deriving Repr, DecidableEq

/-- Mean of the `average` values of a CPU-utilization series
(`sum(point.get('average', 0) for point in dps) / len(dps)`). -/
def meanUtilization (dps : List Datapoint) : ℚ :=
  (dps.map (fun d => d.average.getD 0)).sum / dps.length

/-- The per-resource body of the loop in
`RecommendationEngine._identify_idle_resources`: skip resources already
stopped, pull the CPU series of compute resources, and flag the resource
when the mean utilization is below the `0.05` threshold. -/
def idleCheck (p : Provider) (r : Resource) : Option IdleEntry :=
  if r.status == "stopped" || r.status == "deallocated" ||
      r.status == "terminated" then
    none
  else if r.resource_type == "ec2_instance" ||
      r.resource_type == "virtual_machine" ||
      r.resource_type == "compute_instance" then
    match dictGet (p.getMetrics r.resource_id r.resource_type)
        "cpu_utilization" with
    | none => none
    | some series =>
      if series.datapoints.isEmpty then none
      else
        let avg := meanUtilization series.datapoints
        if avg < 1/20 then
          some { resource_id := r.id
                 resource_type := r.resource_type
                 resource_name := r.name
                 estimated_savings := estimateResourceCost r
                 savings_currency := "USD"
                 avg_cpu_utilization := avg
                 suggested_action :=
                   if r.resource_type == "ec2_instance" then "stop_instance"
                   else "stop_vm" }
        else none
  else none

/-- `RecommendationEngine._identify_idle_resources`. -/
def identifyIdleResources (p : Provider) (resources : List Resource) :
    List IdleEntry :=
  resources.filterMap (idleCheck p)

/-- One entry of the list built by
`RecommendationEngine._identify_untagged_resources`. -/
structure UntaggedEntry where
  id : Nat
  rtype : String
  name : String
  missing_tags : List String
deriving Repr, DecidableEq

def requiredTags : List String :=
  ["Environment", "Owner", "CostCenter", "Project"]

/-- `RecommendationEngine._identify_untagged_resources`: flag every
resource missing at least one required tag. -/
def identifyUntaggedResources (resources : List Resource) :
    List UntaggedEntry :=
  resources.filterMap (fun r =>
    let missing := requiredTags.filter (fun t => !(r.tags.contains t))
    if missing.isEmpty then none
    else some { id := r.id, rtype := r.resource_type, name := r.name,
                missing_tags := missing })

/-- One entry of the list built by
`RecommendationEngine._identify_cost_anomalies`. -/
structure AnomalyEntry where
  day : Nat
  description : String
  estimated_savings : ℚ
  currency : String
  cost : ℚ
  average_cost : ℚ
deriving Repr, DecidableEq

/-- `daily_costs[day] += cost.amount` with dict-insertion ordering. -/
def addDailyCost (acc : List (Nat × ℚ)) (day : Nat) (amt : ℚ) :
    List (Nat × ℚ) :=
  if (acc.find? (fun kv => kv.1 == day)).isSome then
    acc.map (fun kv => if kv.1 == day then (kv.1, kv.2 + amt) else kv)
  else acc ++ [(day, amt)]

/-- The per-day cost totals of a series, grouped in first-occurrence
order. -/
def dailyCosts (costs : List CostData) : List (Nat × ℚ) :=
  costs.foldl (fun acc c => addDailyCost acc c.day c.amount) []

/-- Mean of the daily totals. -/
def avgDailyCost (costs : List CostData) : ℚ :=
  ((dailyCosts costs).map (fun kv => kv.2)).sum / (dailyCosts costs).length

/-- `costs[0].currency if costs else 'USD'`. -/
def currencyOf (costs : List CostData) : String :=
  match costs with
  | c :: _ => c.currency
  | [] => "USD"

/-- `RecommendationEngine._identify_cost_anomalies`, applied to the
day-granularity cost series fetched for the previous month (the
calendar-window fetch through `CostService` is the collaborator boundary;
the heuristic itself is a pure function of the series): flag every day
whose total exceeds `1.5×` the mean daily cost, with estimated monthly
savings `(day_cost − mean) × 30`. -/
def identifyCostAnomalies (costs : List CostData) : List AnomalyEntry :=
  let daily := dailyCosts costs
  if daily.isEmpty then []
  else
    let avg := avgDailyCost costs
    daily.filterMap (fun kv =>
      if avg * (3/2) < kv.2 then
        some { day := kv.1
               description := "Cost spike detected on " ++ toString kv.1
               estimated_savings := (kv.2 - avg) * 30
               currency := currencyOf costs
               cost := kv.2
               average_cost := avg }
      else none)

def optStrJVal : Option String → JVal
  | some v => .s v
  | none => .null

/-- Create one Recommendation per element, threading the state left to
right (the `for` loops of `generate_recommendations`). -/
def createAll {β : Type} (f : State → β → Recommendation × State) :
    State → List β → List Recommendation × State
  | s, [] => ([], s)
  | s, x :: rest =>
    let (r, s1) := f s x
    let (rs, s2) := createAll f s1 rest
    (r :: rs, s2)

/-- The provider-native half of
`RecommendationEngine.generate_recommendations`: each provider item is
normalized through `_map_recommendation_type`, prioritized through
`_determine_priority` and persisted. -/
def createFromProviderRec (account : Nat) (s : State) (r : ProviderRec) :
    Recommendation × State :=
  createRecommendation s account (mapRecommendationType r.ptype)
    (determinePriority r) r.estimated_savings r.savings_currency
    (r.savings_period.getD "monthly") r.resource_id
    [("provider_recommendation_id", optStrJVal r.pid),
     ("description", optStrJVal r.description),
     ("provider_type", JVal.s r.ptype)]

def createFromIdleEntry (account : Nat) (s : State) (e : IdleEntry) :
    Recommendation × State :=
  createRecommendation s account "idle_resource" "medium"
    (some e.estimated_savings) (some e.savings_currency) "monthly"
    (some e.resource_id)
    [("description", JVal.s ("Idle " ++ e.resource_type ++ " detected: " ++
        e.resource_name)),
     ("metrics", JVal.obj [("avg_cpu_utilization",
        JVal.n e.avg_cpu_utilization)]),
     ("suggested_action", JVal.s e.suggested_action)]

def createFromUntaggedEntry (account : Nat) (s : State) (u : UntaggedEntry) :
    Recommendation × State :=
  createRecommendation s account "missing_tags" "low" none none "monthly"
    (some u.id)
    [("description", JVal.s ("Missing required tags on " ++ u.rtype ++
        ": " ++ u.name)),
     ("suggested_tags", JVal.arr (requiredTags.map JVal.s))]

def createFromAnomalyEntry (account : Nat) (s : State) (a : AnomalyEntry) :
    Recommendation × State :=
  createRecommendation s account "cost_anomaly" "high"
    (some a.estimated_savings) (some a.currency) "monthly" none
    [("description", JVal.s a.description),
     ("anomaly_details", JVal.obj
        [("cost", JVal.n a.cost), ("average_cost", JVal.n a.average_cost)])]

/-- `RecommendationEngine._generate_custom_recommendations`: the three
heuristics over the account's resources and previous-month cost series,
each persisting Recommendations with its hard-coded priority
(`idle_resource → medium`, `missing_tags → low`, `cost_anomaly → high`). -/
def generateCustomRecommendations (s : State) (account : Nat)
    (p : Provider) : List Recommendation × State :=
  let resources := s.resources.filter
    (fun r => r.cloud_account_id == account)
  let (idleRecs, s1) := createAll (createFromIdleEntry account) s
    (identifyIdleResources p resources)
  let (tagRecs, s2) := createAll (createFromUntaggedEntry account) s1
    (identifyUntaggedResources resources)
  let costs := s2.costData.filter (fun c => c.cloud_account_id == account)
  let (anomalyRecs, s3) := createAll (createFromAnomalyEntry account) s2
    (identifyCostAnomalies costs)
  (idleRecs ++ tagRecs ++ anomalyRecs, s3)

/-- `RecommendationEngine.generate_recommendations`: provider-native
items first (an exception from `provider.get_recommendations()` is
swallowed, leaving that half empty), then the custom heuristics. -/
def generateRecommendations (s : State) (account : Nat) (p : Provider) :
    List Recommendation × State :=
  let (provRecs, s1) :=
    match p.getRecommendations with
    | .error _ => ([], s)
    | .ok lst => createAll (createFromProviderRec account) s lst
  let (customRecs, s2) := generateCustomRecommendations s1 account p
  (provRecs ++ customRecs, s2)

/-! ## Store lemmas -/

theorem findById_eq_some_id {α : Type} [EntId α] (l : List α) (i : Nat)
    (x : α) (h : findById l i = some x) : EntId.idOf x = i := by
  have hx := List.find?_some h
  simpa using hx

theorem findById_isSome_iff {α : Type} [EntId α] (l : List α) (i : Nat) :
    (findById l i).isSome ↔ i ∈ l.map EntId.idOf := by
  induction l with
  | nil => simp [findById_nil]
  | cons x xs ih =>
    rw [findById_cons]
    by_cases hx : EntId.idOf x = i
    · simp [hx]
    · simp only [hx, if_false, List.map_cons, List.mem_cons]
      rw [ih]
      constructor
      · exact Or.inr
      · rintro (hc | hc)
        · exact absurd hc.symm hx
        · exact hc

theorem dictGet_cons {β : Type} (kv : String × β) (rest : List (String × β))
    (k : String) :
    dictGet (kv :: rest) k =
      if kv.1 = k then some kv.2 else dictGet rest k := by
  by_cases hk : kv.1 = k
  · simp [dictGet, List.find?_cons_of_pos, hk]
  · have hk' : (kv.1 == k) = false := by simp [hk]
    simp [dictGet, List.find?_cons_of_neg, hk', hk]

theorem dictGet_dictSet_self {β : Type} (l : List (String × β)) (k : String)
    (v : β) : dictGet (dictSet l k v) k = some v := by
  induction l with
  | nil => simp [dictSet, dictGet_cons]
  | cons kv rest ih =>
    by_cases hk : kv.1 = k
    · have hk' : (kv.1 == k) = true := by simp [hk]
      simp [dictSet, hk', dictGet_cons]
    · have hk' : (kv.1 == k) = false := by simp [hk]
      simp [dictSet, hk', dictGet_cons, hk, ih]

theorem dictGet_dictSet_ne {β : Type} (l : List (String × β)) (k k' : String)
    (v : β) (h : k' ≠ k) :
    dictGet (dictSet l k v) k' = dictGet l k' := by
  have hne : ¬(k = k') := fun hc => h hc.symm
  induction l with
  | nil => simp [dictSet, dictGet_cons, hne, dictGet]
  | cons kv rest ih =>
    by_cases hk : kv.1 = k
    · have hk' : (kv.1 == k) = true := by simp [hk]
      simp [dictSet, hk', dictGet_cons, hne, hk]
    · have hk' : (kv.1 == k) = false := by simp [hk]
      simp [dictSet, hk', dictGet_cons, ih]

/-! ## Theorems -/

/-- A provider that is never consulted; used to instantiate theorems whose
conclusion does not depend on the provider's behaviour. -/
def trivialProvider : Provider :=
  { execAction := fun _ _ _ _ => .ok true ""
    getMetrics := fun _ _ => []
    getRecommendations := .ok [] }

/-- C1: for every Action with `requires_approval = true` and
`approval_status ≠ 'approved'`, `ActionExecutionEngine.execute_action`
raises the approval-required error synchronously — whatever the Action's
`status` — and returns the state untouched: no `ActionExecution` record
is created and the Action (in particular its `status`) is unchanged. -/
theorem execute_action_requires_approval_gate (s : State) (aid : Nat)
    (p : Provider) (x : Option Nat) (a : Action)
    (ha : getAction s aid = some a)
    (hreq : a.requires_approval = true)
    (happ : a.approval_status ≠ "approved") :
    engineExecuteAction s aid p x =
      (s, .error ("Action with ID " ++ toString aid ++
        " requires approval before execution")) := by
  have hcond : (a.requires_approval && !(a.approval_status == "approved"))
      = true := by
    simp [hreq, happ]
  simp [engineExecuteAction, ha, hcond]

/-- An Action gated behind approval, already in a terminal status, with
the approval still pending. -/
def gatedAction : Action :=
  { id := 1
    cloud_account_id := 10
    action_type := "stop_resource"
    status := "completed" }

def gatedState : State := { actions := [gatedAction], nextId := 2, now := 0 }

theorem execute_action_requires_approval_gate_witness :
    engineExecuteAction gatedState 1 trivialProvider none =
      (gatedState,
       .error "Action with ID 1 requires approval before execution") :=
  execute_action_requires_approval_gate gatedState 1 trivialProvider none
    gatedAction rfl rfl (by decide)

/-- A workflow whose first step fails (an action step without an
`action_id`), followed by a step that must never run. -/
def failingStepWorkflow : Workflow :=
  { id := 6
    organization_id := 1
    name := "wf-fail"
    trigger_type := "manual"
    steps := [WStep.actionStep none, WStep.delayStep 5]
    status := "active" }

def failingStepState : State :=
  { workflows := [failingStepWorkflow], nextId := 30, now := 50 }

/-- C3, counterexample: running a workflow whose step 0 fails does halt at
step 0 (one step result, `failed_step = 0`), but the persisted
`WorkflowExecution` ends in status `'cancelled'`, not `'failed'` as the
claim states. -/
theorem workflow_failed_step_status_cex :
    ((wfExecuteWorkflow failingStepState 6 [] none).1.workflowExecutions.map
      (fun e => e.status) = ["cancelled"]) ∧
    ("cancelled" : String) ≠ "failed" ∧
    ((wfExecuteWorkflow failingStepState 6 [] none).2.toOption.map
      (fun r => (r.status, r.failed_step, r.steps_results.length)) =
      some ("failed", some 0, 1)) :=
  ⟨rfl, by decide, rfl⟩

/-- A workflow whose step 0 is a condition evaluating to `True` with
`true_branch = 2`: under the claimed redirection semantics step 1 would be
skipped. -/
def branchingWorkflow : Workflow :=
  { id := 5
    organization_id := 1
    name := "wf-branch"
    trigger_type := "manual"
    steps := [WStep.conditionStep
                (some (Cond.equalsOp (JVal.n 1) (JVal.n 1))) (some 2) none,
              WStep.delayStep 5,
              WStep.delayStep 7]
    status := "active" }

def branchingState : State :=
  { workflows := [branchingWorkflow], nextId := 20, now := 50 }

def resEntryConditionResult : ResEntry → Option Bool
  | .step r => r.condition_result
  | .txt _ => none

/-- C4, counterexample: with the condition at step 0 evaluating to `true`
and `true_branch = 2`, the claimed redirection would skip step 1; the
engine instead records `results` for steps 0, 1 and 2 — the next index
after the condition step is 1, the branch indices are ignored. -/
theorem condition_branch_ignored_cex :
    ((wfExecuteWorkflow branchingState 5 [] none).1.workflowExecutions.map
      (fun e => (e.status, e.results.map (fun kv => kv.1))) =
      [("completed", ["step_0", "step_1", "step_2"])]) ∧
    (((wfExecuteWorkflow branchingState 5 [] none).1.workflowExecutions.map
      (fun e => (dictGet e.results "step_0").map resEntryConditionResult)) =
      [some (some true)]) :=
  ⟨rfl, rfl⟩

/-- A pending, approval-free Action with no `scheduled_time`, next to a
failed Action whose `scheduled_time` is already due. -/
def unscheduledPendingAction : Action :=
  { id := 1
    cloud_account_id := 10
    action_type := "stop_resource"
    requires_approval := false }

def dueFailedAction : Action :=
  { id := 3
    cloud_account_id := 10
    action_type := "stop_resource"
    requires_approval := false
    status := "failed"
    scheduled_time := some 40 }

def scanState : State :=
  { actions := [unscheduledPendingAction, dueFailedAction],
    nextId := 4, now := 50 }

/-- C5, counterexample: `process_scheduled_actions` executes nothing on a
store holding a pending Action with no `scheduled_time` (the claim says
an unset time makes it eligible) and a failed Action whose time is due
(the claim says failed Actions are scanned): the scan returns no results
and leaves the state untouched. -/
theorem process_scheduled_actions_skips_cex :
    (processScheduledActions scanState trivialProvider).2 = .ok [] ∧
    (processScheduledActions scanState trivialProvider).1 = scanState :=
  ⟨rfl, rfl⟩

/-- A running, fully tagged EC2 instance whose 7-day CPU series averages
3% (utilization as the fraction `0.03`). -/
def idleResource : Resource :=
  { id := 2
    cloud_account_id := 10
    resource_id := "i-1"
    resource_type := "ec2_instance"
    name := "web-1"
    status := "running"
    tags := ["Environment", "Owner", "CostCenter", "Project"] }

def idleMetricsProvider : Provider :=
  { execAction := fun _ _ _ _ => .ok true ""
    getMetrics := fun _ _ =>
      [("cpu_utilization",
        { datapoints := [{ average := some (3/100) }] })]
    getRecommendations := .ok [] }

def idleCustomState : State :=
  { resources := [idleResource], nextId := 100, now := 0 }

/-- The idle-detection entry for `idleResource`. -/
def idleResourceEntry : IdleEntry :=
  { resource_id := 2
    resource_type := "ec2_instance"
    resource_name := "web-1"
    estimated_savings := estimateResourceCost idleResource
    savings_currency := "USD"
    avg_cpu_utilization := meanUtilization [{ average := some (3/100) }]
    suggested_action := "stop_instance" }

/-- C6, counterexample: the custom idle-resource heuristic persists its
Recommendation with the hard-coded priority `'medium'`, although the
claimed rule (`idle` type → always `'high'`) demands `'high'`. -/
theorem custom_idle_priority_cex :
    ((generateCustomRecommendations idleCustomState 10
        idleMetricsProvider).1.map
      (fun r => (r.recommendation_type, r.priority, r.status)) =
      [("idle_resource", "medium", "open")]) ∧
    ("medium" : String) ≠ "high" := by
  refine ⟨?_, by decide⟩
  have h1 : idleCheck idleMetricsProvider idleResource =
      some idleResourceEntry := by
    simp [idleCheck, idleMetricsProvider, idleResource, dictGet,
      idleResourceEntry]
    norm_num [meanUtilization]
  have hidle : identifyIdleResources idleMetricsProvider
      (List.filter (fun r => r.cloud_account_id == 10)
        idleCustomState.resources) = [idleResourceEntry] := by
    simp [identifyIdleResources, idleCustomState]
    simp [show idleResource.cloud_account_id = 10 from rfl, h1]
  have huntag : identifyUntaggedResources
      (List.filter (fun r => r.cloud_account_id == 10)
        idleCustomState.resources) = [] := by
    rfl
  simp only [generateCustomRecommendations, hidle, huntag]
  simp [createAll, createFromIdleEntry, createRecommendation,
    identifyCostAnomalies, dailyCosts, idleCustomState]

/-- An active scheduled workflow whose `trigger_config` carries a `cron`
field at the top level (the §6 blob shape) with no `schedule` wrapper. -/
def cronWorkflow : Workflow :=
  { id := 9
    organization_id := 1
    name := "wf-cron"
    trigger_type := "scheduled"
    trigger_config := some { cron := some "0 0 * * *" }
    steps := [WStep.delayStep 1]
    status := "active" }

def cronState : State := { workflows := [cronWorkflow], nextId := 40, now := 50 }

/-- C9, counterexample: a config with a `cron` field is claimed
always-due, but `process_scheduled_workflows` reads the timing fields
only from `trigger_config['schedule']`; with the `cron` key at the top
level of the config the workflow is skipped — nothing is executed and the
state is untouched. -/
theorem cron_config_not_due_cex :
    (processScheduledWorkflows cronState []).2 = .ok [] ∧
    (processScheduledWorkflows cronState []).1 = cronState :=
  ⟨rfl, rfl⟩

/-- A Recommendation that has already left `open`. -/
def dismissedRecommendation : Recommendation :=
  { id := 7
    cloud_account_id := 10
    recommendation_type := "idle_resource"
    priority := "high"
    status := "dismissed" }

def dismissedState : State :=
  { recommendations := [dismissedRecommendation], nextId := 8, now := 0 }

/-- C10, counterexample: `update_recommendation_status` overwrites the
status unconditionally — requesting `'open'` on a dismissed
Recommendation re-opens it, violating the claimed forward-only
invariant. -/
theorem recommendation_reopened_cex :
    (dismissedState.recommendations.map (fun r => (r.id, r.status)) =
      [(7, "dismissed")]) ∧
    ((updateRecommendationStatus dismissedState 7
        "open").1.recommendations.map (fun r => (r.id, r.status)) =
      [(7, "open")]) :=
  ⟨rfl, rfl⟩

/-- C10, amended: the forward-only rule is enforced nowhere except inside
`complete_action_execution`, whose recommendation update alone is guarded
(`open → applied` only): `complete_action_execution` never touches a
Recommendation whose status is not `'open'` — while
`update_recommendation_status` (and through it the engine's post-success
update) overwrites any status unconditionally, as the counterexample
shows. -/
theorem complete_execution_preserves_nonopen_recommendation (s : State)
    (eid : Nat) (status : String) (result : Option ExecPayload)
    (logs : Option String) (rid : Nat) (r : Recommendation)
    (hr : getRecommendation s rid = some r)
    (hnot : r.status ≠ "open") :
    getRecommendation
      (completeActionExecution s eid status result logs).1 rid = some r := by
  have hpres : ∀ (s' : State) (a : Action),
      getRecommendation s' rid = some r →
      getRecommendation (completeRecUpdate s' a status) rid = some r := by
    intro s' a hr'
    unfold completeRecUpdate
    repeat' split
    all_goals try exact hr'
    rename_i hOptN rid' hridEq hcompEq hOptR rf hgr rfopen
    have hid : EntId.idOf rf = rid' := findById_eq_some_id _ _ _ hgr
    by_cases heq : rid' = rid
    · subst heq
      rw [hr'] at hgr
      cases hgr
      exact absurd (by simpa using rfopen) hnot
    · have hid2 : rf.id = rid' := hid
      have hne : rid ≠
          EntId.idOf ({ rf with status := "applied" } : Recommendation) := by
        show rid ≠ rf.id
        exact fun hc => heq ((hid2 ▸ hc).symm)
      show findById
          (updateById s'.recommendations { rf with status := "applied" })
          rid = some r
      rw [findById_updateById_ne _ _ _ hne]
      exact hr'
  unfold completeActionExecution
  dsimp only
  repeat' split
  all_goals try exact hr
  all_goals exact hpres _ _ hr

/-- An in-progress execution of an Action spawned by the (already
dismissed) Recommendation `dismissedRecommendation`. -/
def dismissedRecAction : Action :=
  { id := 11
    cloud_account_id := 10
    action_type := "stop_resource"
    status := "in_progress"
    requires_approval := false
    recommendation_id := some 7 }

def dismissedRecExecution : ActionExecution :=
  { id := 12
    action_id := 11
    status := "in_progress"
    start_time := 0 }

def dismissedRunState : State :=
  { recommendations := [dismissedRecommendation]
    actions := [dismissedRecAction]
    actionExecutions := [dismissedRecExecution]
    nextId := 13
    now := 1 }

theorem complete_execution_preserves_nonopen_recommendation_witness :
    getRecommendation
      (completeActionExecution dismissedRunState 12 "completed"
        (some (.provider true "done")) (some "ok")).1 7 =
      some dismissedRecommendation :=
  complete_execution_preserves_nonopen_recommendation dismissedRunState 12
    "completed" (some (.provider true "done")) (some "ok") 7
    dismissedRecommendation rfl (by decide)

/-- C4, amended: for every successfully completed step at index `i`,
`process_workflow_step` persists the step result into
`results["step_i"]` and returns next step index `i + 1` — always.  The
step list is arbitrary here: a condition step's `true_branch` /
`false_branch` play no role in execution (they are only validated at
creation time), as the counterexample shows. -/
theorem process_workflow_step_persists_and_increments (s : State)
    (eid i : Nat) (sr : StepResult) (ex : WorkflowExecution) (w : Workflow)
    (st : WStep)
    (hex : findWorkflowExecution s eid = some ex)
    (hprog : ex.status = "in_progress")
    (hw : getWorkflowById s ex.workflow_id = some w)
    (hst : w.steps.get? (i + 1) = some st) :
    ∃ ex' : WorkflowExecution,
      ex' = { ex with
              results :=
                dictSet ex.results ("step_" ++ toString i) (.step sr) } ∧
      processWorkflowStep s eid i (some sr) =
        ({ s with workflowExecutions := updateById s.workflowExecutions ex' },
         .ok (.cont (i + 1) st)) ∧
      findWorkflowExecution
        (processWorkflowStep s eid i (some sr)).1 eid = some ex' ∧
      dictGet ex'.results ("step_" ++ toString i) = some (.step sr) := by
  have hlt : i + 1 < w.steps.length := by
    by_contra hge
    rw [List.get?_eq_none.mpr (Nat.le_of_not_lt hge)] at hst
    exact Option.noConfusion hst
  have hprog' : (ex.status == "in_progress") = true := by simp [hprog]
  have hnle : ¬(w.steps.length ≤ i + 1) := Nat.not_le_of_lt hlt
  obtain ⟨ex2, hex2⟩ : ∃ ex2 : WorkflowExecution,
      ex2 = { ex with
              results :=
                dictSet ex.results ("step_" ++ toString i) (.step sr) } :=
    ⟨_, rfl⟩
  have heq : processWorkflowStep s eid i (some sr) =
      ({ s with workflowExecutions := updateById s.workflowExecutions ex2 },
       .ok (.cont (i + 1) st)) := by
    rw [hex2]
    unfold processWorkflowStep
    simp only [hex, hprog', Bool.not_true, Bool.false_eq_true, if_false, hw]
    simp only [hnle, if_false, hst]
  have hid : EntId.idOf ex = eid := findById_eq_some_id _ _ _ hex
  have hid2 : EntId.idOf ex2 = eid := by rw [hex2]; exact hid
  refine ⟨ex2, hex2, heq, ?_, ?_⟩
  · rw [heq]
    have hsome : (findById s.workflowExecutions (EntId.idOf ex2)).isSome := by
      rw [hid2]
      have hex' : findById s.workflowExecutions eid = some ex := hex
      simp [hex']
    have hfind := findById_updateById_self s.workflowExecutions ex2 hsome
    rw [hid2] at hfind
    exact hfind
  · rw [hex2]
    exact dictGet_dictSet_self _ _ _

/-- An in-progress workflow execution of `branchingWorkflow`, mid-run. -/
def branchingRunState : State :=
  { workflows := [branchingWorkflow]
    workflowExecutions := [{ id := 21, workflow_id := 5,
                             status := "in_progress", start_time := 50 }]
    nextId := 22
    now := 50 }

theorem process_workflow_step_persists_and_increments_witness :
    ∃ ex' : WorkflowExecution,
      ex' = { id := 21, workflow_id := 5, status := "in_progress",
              start_time := 50,
              results := dictSet [] "step_0"
                (.step { status := "completed",
                         condition_result := some true,
                         message := "Condition evaluated to True" }) } ∧
      processWorkflowStep branchingRunState 21 0
          (some { status := "completed", condition_result := some true,
                  message := "Condition evaluated to True" }) =
        ({ branchingRunState with
            workflowExecutions :=
              updateById branchingRunState.workflowExecutions ex' },
         .ok (.cont 1 (WStep.delayStep 5))) ∧
      findWorkflowExecution
        (processWorkflowStep branchingRunState 21 0
          (some { status := "completed", condition_result := some true,
                  message := "Condition evaluated to True" })).1 21 =
        some ex' ∧
      dictGet ex'.results "step_0" =
        some (.step { status := "completed", condition_result := some true,
                      message := "Condition evaluated to True" }) :=
  process_workflow_step_persists_and_increments branchingRunState 21 0
    { status := "completed", condition_result := some true,
      message := "Condition evaluated to True" }
    { id := 21, workflow_id := 5, status := "in_progress", start_time := 50 }
    branchingWorkflow (WStep.delayStep 5) rfl rfl rfl rfl

/-- C3, amended: whenever a step of a running workflow produces a result
whose status is not `'completed'`, the execute-workflow loop stops at that
step: the returned result has status `'failed'` with the failing step
index and message, no step after the failing one is executed
(`steps_results` ends with the failing step's result), and the persisted
`WorkflowExecution` is closed — with status `'cancelled'` (not
`'failed'`), the failing step index and message recorded under
`results["cancellation_reason"]`. -/
theorem workflow_step_failure_halts (wf : Workflow)
    (pm : List (Nat × Provider)) (eid fuel current : Nat)
    (acc : List StepResult) (s s1 : State) (step : WStep) (sr : StepResult)
    (ex1 : WorkflowExecution)
    (hstep : wf.steps.get? current = some step)
    (hrun : executeWorkflowStep s step pm eid current = (s1, .ok sr))
    (hfail : sr.status ≠ "completed")
    (hex : findWorkflowExecution s1 eid = some ex1)
    (hprog : ex1.status = "in_progress") :
    ∃ ex2 : WorkflowExecution,
      ex2 = { ex1 with
              status := "cancelled"
              end_time := some s1.now
              results := dictSet ex1.results "cancellation_reason"
                (.txt (some ("Step " ++ toString current ++ " failed: " ++
                  sr.message))) } ∧
      runSteps wf pm eid fuel s current acc =
        ({ s1 with
            workflowExecutions := updateById s1.workflowExecutions ex2 },
         .ok { workflow_id := wf.id, execution_id := eid,
               status := "failed",
               message := "Workflow failed at step " ++ toString current ++
                 ": " ++ sr.message,
               steps_results := acc ++ [sr],
               failed_step := some current }) ∧
      findWorkflowExecution
        (runSteps wf pm eid fuel s current acc).1 eid = some ex2 ∧
      ex2.status = "cancelled" ∧
      dictGet ex2.results "cancellation_reason" =
        some (.txt (some ("Step " ++ toString current ++ " failed: " ++
          sr.message))) := by
  have hfail' : (sr.status == "completed") = false := by simp [hfail]
  have hprog' : (ex1.status == "in_progress") = true := by simp [hprog]
  obtain ⟨ex2, hex2⟩ : ∃ ex2 : WorkflowExecution,
      ex2 = { ex1 with
              status := "cancelled"
              end_time := some s1.now
              results := dictSet ex1.results "cancellation_reason"
                (.txt (some ("Step " ++ toString current ++ " failed: " ++
                  sr.message))) } :=
    ⟨_, rfl⟩
  have hcancel : cancelWorkflowExecution s1 eid
      (some ("Step " ++ toString current ++ " failed: " ++ sr.message)) =
      ({ s1 with
          workflowExecutions := updateById s1.workflowExecutions ex2 },
       .ok ex2) := by
    rw [hex2]
    unfold cancelWorkflowExecution
    simp only [hex, hprog', Bool.not_true, Bool.false_eq_true, if_false]
  have heq : runSteps wf pm eid fuel s current acc =
      ({ s1 with
          workflowExecutions := updateById s1.workflowExecutions ex2 },
       .ok { workflow_id := wf.id, execution_id := eid,
             status := "failed",
             message := "Workflow failed at step " ++ toString current ++
               ": " ++ sr.message,
             steps_results := acc ++ [sr],
             failed_step := some current }) := by
    unfold runSteps
    simp only [hstep, hrun, hfail', Bool.not_false, if_true, hcancel]
  have hid : EntId.idOf ex1 = eid := findById_eq_some_id _ _ _ hex
  have hid2 : EntId.idOf ex2 = eid := by rw [hex2]; exact hid
  refine ⟨ex2, hex2, heq, ?_, ?_, ?_⟩
  · rw [heq]
    have hsome : (findById s1.workflowExecutions (EntId.idOf ex2)).isSome := by
      rw [hid2]
      have hex' : findById s1.workflowExecutions eid = some ex1 := hex
      simp [hex']
    have hfind := findById_updateById_self s1.workflowExecutions ex2 hsome
    rw [hid2] at hfind
    exact hfind
  · rw [hex2]
  · rw [hex2]
    exact dictGet_dictSet_self _ _ _

/-- An in-progress workflow execution of `failingStepWorkflow`, about to
run step 0. -/
def failingRunState : State :=
  { workflows := [failingStepWorkflow]
    workflowExecutions := [{ id := 30, workflow_id := 6,
                             status := "in_progress", start_time := 50 }]
    nextId := 31
    now := 50 }

theorem workflow_step_failure_halts_witness :
    ∃ ex2 : WorkflowExecution,
      ex2 = { id := 30, workflow_id := 6, status := "cancelled",
              start_time := 50, end_time := some 50,
              results := dictSet [] "cancellation_reason"
                (.txt (some "Step 0 failed: Missing action_id in workflow step")) } ∧
      runSteps failingStepWorkflow [] 30 3 failingRunState 0 [] =
        ({ failingRunState with
            workflowExecutions :=
              updateById failingRunState.workflowExecutions ex2 },
         .ok { workflow_id := 6, execution_id := 30, status := "failed",
               message :=
                 "Workflow failed at step 0: Missing action_id in workflow step",
               steps_results :=
                 [] ++ [{ status := "failed",
                          message := "Missing action_id in workflow step" }],
               failed_step := some 0 }) ∧
      findWorkflowExecution
        (runSteps failingStepWorkflow [] 30 3 failingRunState 0 []).1 30 =
        some ex2 ∧
      ex2.status = "cancelled" ∧
      dictGet ex2.results "cancellation_reason" =
        some (.txt (some "Step 0 failed: Missing action_id in workflow step")) :=
  workflow_step_failure_halts failingStepWorkflow [] 30 3 0 []
    failingRunState failingRunState (WStep.actionStep none)
    { status := "failed", message := "Missing action_id in workflow step" }
    { id := 30, workflow_id := 6, status := "in_progress", start_time := 50 }
    rfl rfl (by decide) rfl rfl

/-- C7: the idle-resource heuristic never flags a resource whose status is
stopped/deallocated/terminated; and for a compute resource that is not in
one of those statuses, with a non-empty CPU-utilization series, it flags
the resource exactly when the mean of the series is below the 5%
threshold (`0.05`, utilization as a fraction). -/
theorem idle_detection_threshold (p : Provider) (r : Resource)
    (dps : List Datapoint) :
    ((r.status = "stopped" ∨ r.status = "deallocated" ∨
        r.status = "terminated") →
      identifyIdleResources p [r] = []) ∧
    ((r.resource_type = "ec2_instance" ∨
        r.resource_type = "virtual_machine" ∨
        r.resource_type = "compute_instance") →
      r.status ≠ "stopped" → r.status ≠ "deallocated" →
      r.status ≠ "terminated" →
      dictGet (p.getMetrics r.resource_id r.resource_type)
        "cpu_utilization" = some { datapoints := dps } →
      dps ≠ [] →
      (identifyIdleResources p [r]).map (fun e => e.resource_id) =
        (if meanUtilization dps < 1/20 then [r.id] else [])) := by
  constructor
  · intro hstop
    rcases hstop with h | h | h <;>
      simp [identifyIdleResources, idleCheck, h]
  · intro htype h1 h2 h3 hm hne
    have hemp : dps.isEmpty = false := by
      cases dps with
      | nil => exact absurd rfl hne
      | cons d rest => rfl
    have hs1 : (r.status == "stopped") = false := by simp [h1]
    have hs2 : (r.status == "deallocated") = false := by simp [h2]
    have hs3 : (r.status == "terminated") = false := by simp [h3]
    by_cases havg : meanUtilization dps < 1/20
    · rw [one_div] at havg
      rcases htype with h | h | h <;> rw [h] at hm <;>
        simp [identifyIdleResources, idleCheck, List.filterMap_cons,
          List.filterMap_nil, hs1, hs2, hs3, h, hm, hemp, havg]
    · rw [one_div] at havg
      rcases htype with h | h | h <;> rw [h] at hm <;>
        simp [identifyIdleResources, idleCheck, List.filterMap_cons,
          List.filterMap_nil, hs1, hs2, hs3, h, hm, hemp, havg]

theorem idle_detection_threshold_witness :
    (identifyIdleResources idleMetricsProvider [idleResource]).map
      (fun e => e.resource_id) = [2] := by
  have h := (idle_detection_threshold idleMetricsProvider idleResource
    [{ average := some (3/100) }]).2
  have hn : meanUtilization [{ average := some (3/100) }] < 1/20 := by
    norm_num [meanUtilization]
  rw [h (Or.inl rfl) (by decide) (by decide) (by decide) rfl (by decide),
    if_pos hn]
  rfl

/-- A previous-month daily cost series: four days costing 10 and one day
costing 40 (the spec's Scenario 5). -/
def demoCosts : List CostData :=
  [{ id := 101, cloud_account_id := 10, day := 1, amount := 10,
     currency := "USD" },
   { id := 102, cloud_account_id := 10, day := 2, amount := 10,
     currency := "USD" },
   { id := 103, cloud_account_id := 10, day := 3, amount := 10,
     currency := "USD" },
   { id := 104, cloud_account_id := 10, day := 4, amount := 10,
     currency := "USD" },
   { id := 105, cloud_account_id := 10, day := 5, amount := 40,
     currency := "USD" }]

def demoAnomaly : AnomalyEntry :=
  { day := 5
    description := "Cost spike detected on 5"
    estimated_savings := 720
    currency := "USD"
    cost := 40
    average_cost := 16 }

/-- C8: the cost-anomaly heuristic flags exactly the days whose total
exceeds `1.5×` the mean daily cost, with estimated monthly savings
`(day_cost − mean) × 30`, in exact (rational) arithmetic; on the daily
series `[10,10,10,10,40]` (mean 16) it flags only the day costing 40,
with estimated savings `(40−16)×30 = 720`. -/
theorem cost_anomaly_characterization :
    (∀ (costs : List CostData) (a : AnomalyEntry),
      a ∈ identifyCostAnomalies costs →
      avgDailyCost costs * (3/2) < a.cost ∧
      a.estimated_savings = (a.cost - avgDailyCost costs) * 30) ∧
    (∀ (costs : List CostData) (day : Nat) (c : ℚ),
      (day, c) ∈ dailyCosts costs →
      avgDailyCost costs * (3/2) < c →
      ∃ a ∈ identifyCostAnomalies costs,
        a.day = day ∧ a.cost = c ∧
        a.estimated_savings = (c - avgDailyCost costs) * 30) ∧
    identifyCostAnomalies demoCosts = [demoAnomaly] := by
  refine ⟨?_, ?_, ?_⟩
  · intro costs a ha
    unfold identifyCostAnomalies at ha
    by_cases hemp : (dailyCosts costs).isEmpty
    · simp [hemp] at ha
    · simp only [hemp, Bool.false_eq_true, if_false] at ha
      obtain ⟨kv, _, hf⟩ := List.mem_filterMap.mp ha
      by_cases hc : avgDailyCost costs * (3/2) < kv.2
      · rw [if_pos hc] at hf
        cases hf
        exact ⟨hc, rfl⟩
      · rw [if_neg hc] at hf
        exact Option.noConfusion hf
  · intro costs day c hmem hc
    have hemp : (dailyCosts costs).isEmpty = false := by
      cases hdc : dailyCosts costs with
      | nil => rw [hdc] at hmem; exact absurd hmem (List.not_mem_nil _)
      | cons kv rest => rfl
    refine ⟨{ day := day
              description := "Cost spike detected on " ++ toString day
              estimated_savings := (c - avgDailyCost costs) * 30
              currency := currencyOf costs
              cost := c
              average_cost := avgDailyCost costs }, ?_, rfl, rfl, rfl⟩
    unfold identifyCostAnomalies
    simp only [hemp, Bool.false_eq_true, if_false]
    exact List.mem_filterMap.mpr ⟨(day, c), hmem, by rw [if_pos hc]⟩
  · have hdaily : dailyCosts demoCosts =
        [(1, 10), (2, 10), (3, 10), (4, 10), (5, 40)] := rfl
    have havg : avgDailyCost demoCosts = 16 := by
      rw [avgDailyCost, hdaily]
      norm_num
    unfold identifyCostAnomalies
    rw [hdaily, havg]
    norm_num [demoAnomaly, currencyOf, demoCosts, List.filterMap_cons]
    rfl

theorem cost_anomaly_characterization_witness :
    avgDailyCost demoCosts * (3/2) < demoAnomaly.cost ∧
    demoAnomaly.estimated_savings =
      (demoAnomaly.cost - avgDailyCost demoCosts) * 30 := by
  have h := cost_anomaly_characterization
  have hmem : demoAnomaly ∈ identifyCostAnomalies demoCosts := by
    rw [h.2.2]
    exact List.mem_singleton.mpr rfl
  exact h.1 demoCosts demoAnomaly hmem

theorem createAll_mem {β : Type} (f : State → β → Recommendation × State)
    (s : State) (l : List β) (r : Recommendation)
    (h : r ∈ (createAll f s l).1) :
    ∃ (s' : State) (x : β), x ∈ l ∧ r = (f s' x).1 := by
  induction l generalizing s with
  | nil => simp [createAll] at h
  | cons x rest ih =>
    simp only [createAll] at h
    rcases List.mem_cons.mp h with hh | hh
    · exact ⟨s, x, List.mem_cons_self x rest, hh⟩
    · obtain ⟨s', y, hy, hr⟩ := ih (f s x).2 hh
      exact ⟨s', y, List.mem_cons_of_mem x hy, hr⟩

/-- C6, amended: `_determine_priority` implements the rule — provider
type `idle` always `'high'`, otherwise `'high'` above savings of 100,
`'low'` below 10, `'medium'` otherwise (also when no savings are given) —
and it is applied to every provider-native Recommendation; the custom
heuristics do **not** go through that rule but persist fixed priorities:
`idle_resource → 'medium'`, `missing_tags → 'low'`,
`cost_anomaly → 'high'`. -/
theorem priority_assignment :
    (∀ r : ProviderRec,
      determinePriority r =
        if r.ptype = "idle" then "high"
        else
          match r.estimated_savings with
          | some v =>
            if v > 100 then "high" else if v < 10 then "low" else "medium"
          | none => "medium") ∧
    (∀ (s : State) (account : Nat) (pr : ProviderRec),
      ((createFromProviderRec account s pr).1).priority =
        determinePriority pr) ∧
    (∀ (s : State) (account : Nat) (p : Provider) (r : Recommendation),
      r ∈ (generateCustomRecommendations s account p).1 →
      (r.recommendation_type = "idle_resource" ∧ r.priority = "medium") ∨
      (r.recommendation_type = "missing_tags" ∧ r.priority = "low") ∨
      (r.recommendation_type = "cost_anomaly" ∧ r.priority = "high")) := by
  refine ⟨?_, ?_, ?_⟩
  · intro r
    unfold determinePriority
    cases r.estimated_savings with
    | none => by_cases hty : r.ptype = "idle" <;> simp [hty]
    | some v => by_cases hty : r.ptype = "idle" <;> simp [hty]
  · intro s account pr
    rfl
  · intro s account p r hr
    unfold generateCustomRecommendations at hr
    simp only [List.mem_append] at hr
    rcases hr with (hr | hr) | hr
    · obtain ⟨s', x, _, hre⟩ := createAll_mem _ _ _ _ hr
      subst hre
      exact Or.inl ⟨rfl, rfl⟩
    · obtain ⟨s', x, _, hre⟩ := createAll_mem _ _ _ _ hr
      subst hre
      exact Or.inr (Or.inl ⟨rfl, rfl⟩)
    · obtain ⟨s', x, _, hre⟩ := createAll_mem _ _ _ _ hr
      subst hre
      exact Or.inr (Or.inr ⟨rfl, rfl⟩)

/-- An untagged S3 bucket: exercises the missing-tags heuristic only
(no metrics, no cost data). -/
def untaggedBucket : Resource :=
  { id := 3
    cloud_account_id := 10
    resource_id := "bkt-1"
    resource_type := "s3_bucket"
    name := "logs"
    status := "available" }

def untaggedState : State :=
  { resources := [untaggedBucket], nextId := 200, now := 0 }

theorem priority_assignment_witness :
    ((createRecommendation untaggedState 10 "missing_tags" "low" none none
        "monthly" (some 3)
        [("description",
          JVal.s "Missing required tags on s3_bucket: logs"),
         ("suggested_tags",
          JVal.arr (requiredTags.map JVal.s))]).1.recommendation_type =
        "idle_resource" ∧
      (createRecommendation untaggedState 10 "missing_tags" "low" none none
        "monthly" (some 3)
        [("description",
          JVal.s "Missing required tags on s3_bucket: logs"),
         ("suggested_tags",
          JVal.arr (requiredTags.map JVal.s))]).1.priority = "medium") ∨
    ((createRecommendation untaggedState 10 "missing_tags" "low" none none
        "monthly" (some 3)
        [("description",
          JVal.s "Missing required tags on s3_bucket: logs"),
         ("suggested_tags",
          JVal.arr (requiredTags.map JVal.s))]).1.recommendation_type =
        "missing_tags" ∧
      (createRecommendation untaggedState 10 "missing_tags" "low" none none
        "monthly" (some 3)
        [("description",
          JVal.s "Missing required tags on s3_bucket: logs"),
         ("suggested_tags",
          JVal.arr (requiredTags.map JVal.s))]).1.priority = "low") ∨
    ((createRecommendation untaggedState 10 "missing_tags" "low" none none
        "monthly" (some 3)
        [("description",
          JVal.s "Missing required tags on s3_bucket: logs"),
         ("suggested_tags",
          JVal.arr (requiredTags.map JVal.s))]).1.recommendation_type =
        "cost_anomaly" ∧
      (createRecommendation untaggedState 10 "missing_tags" "low" none none
        "monthly" (some 3)
        [("description",
          JVal.s "Missing required tags on s3_bucket: logs"),
         ("suggested_tags",
          JVal.arr (requiredTags.map JVal.s))]).1.priority = "high") :=
  priority_assignment.2.2 untaggedState 10 trivialProvider _
    (List.mem_append.mpr (Or.inl (List.mem_append.mpr (Or.inr
      (List.mem_singleton.mpr rfl)))))

theorem completeRecUpdate_not_completed (s : State) (a : Action)
    (status : String) (h : (status == "completed") = false) :
    completeRecUpdate s a status = s := by
  unfold completeRecUpdate
  cases a.recommendation_id with
  | none => rfl
  | some rid => simp [h]

/-- The error text of a failed provider call: the exception message, or
the provider's message on an unsuccessful result. -/
def providerErrText : ProviderOutcome → String
  | .raised e => e
  | .ok _ m => m

/-- C2: once an Action's execution has started (the approval gate passed
and the Action was pending or failed), a provider call that raises or
returns an unsuccessful result is absorbed: `execute_action` returns a
result with status `'failed'` (no exception leaves the engine), the
Action and the freshly opened ActionExecution are both persisted as
`'failed'`, and the execution's log text ends with the error text. -/
theorem execute_action_provider_failure_absorbed (s : State) (aid : Nat)
    (p : Provider) (x : Option Nat) (a : Action) (po : ProviderOutcome)
    (emsg : String)
    (ha : getAction s aid = some a)
    (happrove : a.requires_approval = true → a.approval_status = "approved")
    (hstatus : a.status = "pending" ∨ a.status = "failed")
    (hfresh : ∀ e ∈ s.actionExecutions, EntId.idOf e < s.nextId)
    (hp : ∀ (verb : String) (ri rt : Option String)
      (params : List (String × JVal)), p.execAction verb ri rt params = po)
    (hpo : po = .raised emsg ∨ po = .ok false emsg) :
    ∃ (s' : State) (r : EngResult) (a' : Action) (ex' : ActionExecution)
      (pre : String),
      engineExecuteAction s aid p x = (s', .ok r) ∧
      r.status = "failed" ∧ r.action_id = aid ∧ r.execution_id = s.nextId ∧
      getAction s' aid = some a' ∧ a'.status = "failed" ∧
      findActionExecution s' s.nextId = some ex' ∧
      ex'.status = "failed" ∧
      ex'.logs = some (pre ++ emsg) := by
  have haid : a.id = aid := findById_eq_some_id _ _ _ ha
  have hgate : (a.requires_approval && !(a.approval_status == "approved"))
      = false := by
    cases hra : a.requires_approval with
    | false => rfl
    | true => simp [happrove hra]
  have hst : (!(a.status == "pending" || a.status == "failed")) = false := by
    rcases hstatus with h | h <;> simp [h]
  obtain ⟨a1, ha1⟩ : ∃ a1 : Action,
      a1 = { a with status := "in_progress", executed_time := some s.now } :=
    ⟨_, rfl⟩
  obtain ⟨ex0, hex0⟩ : ∃ ex0 : ActionExecution,
      ex0 = { id := s.nextId, action_id := aid, executor_id := x,
              status := "in_progress", start_time := s.now } :=
    ⟨_, rfl⟩
  obtain ⟨s2, hs2⟩ : ∃ s2 : State,
      s2 = { s with
             actions := updateById s.actions a1,
             actionExecutions := s.actionExecutions ++ [ex0],
             nextId := s.nextId + 1 } :=
    ⟨_, rfl⟩
  have hsvc : svcExecuteAction s aid x = (s2, .ok ex0) := by
    rw [hs2, hex0, ha1]
    unfold svcExecuteAction
    rw [ha]
    simp only [hgate, Bool.false_eq_true, if_false, hst]
  have hfind0 : findActionExecution s2 s.nextId = some ex0 := by
    have hne : ∀ e ∈ s.actionExecutions, EntId.idOf e ≠ EntId.idOf ex0 := by
      intro e he
      rw [hex0]
      exact Nat.ne_of_lt (hfresh e he)
    have := findById_append_fresh s.actionExecutions ex0 hne
    rw [hs2]
    show findById (s.actionExecutions ++ [ex0]) s.nextId = some ex0
    have hexid : EntId.idOf ex0 = s.nextId := by rw [hex0]; rfl
    rw [hexid] at this
    exact this
  have hga1 : getAction s2 aid = some a1 := by
    rw [hs2]
    show findById (updateById s.actions a1) aid = some a1
    have hid1 : EntId.idOf a1 = aid := by rw [ha1]; exact haid
    have hsome : (findById s.actions (EntId.idOf a1)).isSome := by
      rw [hid1]
      simp [show findById s.actions aid = some a from ha]
    have := findById_updateById_self s.actions a1 hsome
    rw [hid1] at this
    exact this
  -- the status and logs of the completed-as-failed execution record
  have hcomplete : ∀ (res : Option ExecPayload) (logs : Option String),
      ∃ (s4 : State) (a2 : Action) (ex1 : ActionExecution),
        completeActionExecution s2 s.nextId "failed" res logs =
          (s4, .ok ex1) ∧
        ex1.status = "failed" ∧ ex1.logs = logs ∧
        getAction s4 aid = some a2 ∧ a2.status = "failed" ∧
        findActionExecution s4 s.nextId = some ex1 := by
    intro res logs
    obtain ⟨ex1, hex1⟩ : ∃ ex1 : ActionExecution,
        ex1 = { ex0 with
                status := "failed"
                end_time := some s2.now
                result := res
                logs := logs } :=
      ⟨_, rfl⟩
    obtain ⟨a2, ha2⟩ : ∃ a2 : Action,
        a2 = { a1 with
               status := "failed"
               completed_time := some s2.now
               result := res } :=
      ⟨_, rfl⟩
    have hprog0 : (ex0.status == "in_progress") = true := by
      rw [hex0]
      rfl
    have hcru : ∀ st : State, completeRecUpdate st a1 "failed" = st :=
      fun st => completeRecUpdate_not_completed st a1 "failed" (by decide)
    have hact0 : ex0.action_id = aid := by rw [hex0]
    refine ⟨{ s2 with
              actionExecutions := updateById s2.actionExecutions ex1,
              actions := updateById s2.actions a2 }, a2, ex1, ?_, ?_, ?_,
            ?_, ?_, ?_⟩
    · unfold completeActionExecution
      rw [hfind0]
      simp only [hprog0, Bool.not_true, Bool.false_eq_true, if_false]
      have hga1' : getAction
          { s2 with
            actionExecutions :=
              updateById s2.actionExecutions
                { ex0 with
                  status := "failed"
                  end_time := some s2.now
                  result := res
                  logs := logs } }
          ex0.action_id = some a1 := by
        rw [hact0]
        exact hga1
      rw [hga1']
      dsimp only
      rw [hcru]
      rw [hex1, ha2]
    · rw [hex1]
    · rw [hex1]
    · show findById (updateById s2.actions a2) aid = some a2
      have hid2 : EntId.idOf a2 = aid := by rw [ha2, ha1]; exact haid
      have hsome : (findById s2.actions (EntId.idOf a2)).isSome := by
        rw [hid2]
        simp [show findById s2.actions aid = some a1 from hga1]
      have := findById_updateById_self s2.actions a2 hsome
      rw [hid2] at this
      exact this
    · rw [ha2]
    · show findById (updateById s2.actionExecutions ex1) s.nextId = some ex1
      have hid1 : EntId.idOf ex1 = s.nextId := by rw [hex1, hex0]; rfl
      have hsome : (findById s2.actionExecutions (EntId.idOf ex1)).isSome := by
        rw [hid1]
        simp [show findById s2.actionExecutions s.nextId = some ex0 from
          hfind0]
      have := findById_updateById_self s2.actionExecutions ex1 hsome
      rw [hid1] at this
      exact this
  have hexid0 : ex0.id = s.nextId := by rw [hex0]
  rcases hpo with hraised | hnosucc
  · -- the provider call raises: the except branch closes everything as failed
    obtain ⟨s4, a2, ex1, hcq, hex1st, hex1logs, hga2, ha2st, hfind1⟩ :=
      hcomplete (some (.failure emsg))
        (some ("Action execution failed at " ++ toString s2.now ++
          "\nError: " ++ ("Error executing action: " ++ emsg)))
    refine ⟨s4, { action_id := aid, execution_id := ex0.id,
                  status := "failed",
                  message := "Error executing action: " ++ emsg },
            a2, ex1,
            "Action execution failed at " ++ toString s2.now ++
              "\nError: " ++ "Error executing action: ", ?_, rfl, rfl, ?_,
            hga2, ha2st, hfind1, hex1st, ?_⟩
    · unfold engineExecuteAction
      rw [ha]
      simp only [hgate, Bool.false_eq_true, if_false]
      rw [hsvc]
      dsimp only
      rw [hp _ _ _ _, hraised]
      dsimp only
      unfold engineHandleError
      dsimp only
      rw [hexid0]
      rw [hcq]
    · rw [hexid0]
    · rw [hex1logs]
      simp only [String.append_assoc]
  · -- the provider reports an unsuccessful result
    obtain ⟨s4, a2, ex1, hcq, hex1st, hex1logs, hga2, ha2st, hfind1⟩ :=
      hcomplete (some (.provider false emsg))
        (some ("Action executed at " ++ toString s2.now ++ "\nResult: " ++
          emsg))
    refine ⟨s4, { action_id := aid, execution_id := ex0.id,
                  status := "failed", message := emsg },
            a2, ex1,
            "Action executed at " ++ toString s2.now ++ "\nResult: ", ?_,
            rfl, rfl, ?_, hga2, ha2st, hfind1, hex1st, ?_⟩
    · unfold engineExecuteAction
      rw [ha]
      simp only [hgate, Bool.false_eq_true, if_false]
      rw [hsvc]
      dsimp only
      rw [hp _ _ _ _, hnosucc]
      dsimp only
      simp only
        [show (if false = true then "completed" else "failed") = "failed"
          from rfl]
      rw [hexid0]
      rw [hcq]
      cases a.recommendation_id with
      | none => rfl
      | some rid => rfl
    · rw [hexid0]
    · rw [hex1logs]

/-- A provider whose action call always raises. -/
def raisingProvider : Provider :=
  { execAction := fun _ _ _ _ => .raised "boom"
    getMetrics := fun _ _ => []
    getRecommendations := .ok [] }

/-- A pending Action free of the approval gate. -/
def runnableAction : Action :=
  { id := 1
    cloud_account_id := 10
    action_type := "stop_resource"
    requires_approval := false }

def runnableState : State := { actions := [runnableAction], nextId := 2, now := 7 }

theorem execute_action_provider_failure_absorbed_witness :
    ∃ (s' : State) (r : EngResult) (a' : Action) (ex' : ActionExecution)
      (pre : String),
      engineExecuteAction runnableState 1 raisingProvider none =
        (s', .ok r) ∧
      r.status = "failed" ∧ r.action_id = 1 ∧
      r.execution_id = runnableState.nextId ∧
      getAction s' 1 = some a' ∧ a'.status = "failed" ∧
      findActionExecution s' runnableState.nextId = some ex' ∧
      ex'.status = "failed" ∧
      ex'.logs = some (pre ++ "boom") :=
  execute_action_provider_failure_absorbed runnableState 1 raisingProvider
    none runnableAction (.raised "boom") "boom" rfl (by decide)
    (Or.inl rfl) (fun e he => absurd he (List.not_mem_nil e))
    (fun _ _ _ _ => rfl) (Or.inl rfl)

theorem findById_of_mem_nodup {α : Type} [EntId α] (l : List α) (a : α)
    (hnd : (l.map EntId.idOf).Nodup) (hmem : a ∈ l) :
    findById l (EntId.idOf a) = some a := by
  induction l with
  | nil => cases hmem
  | cons x xs ih =>
    rw [findById_cons]
    rcases List.mem_cons.mp hmem with hh | hh
    · subst hh
      simp
    · have hne : EntId.idOf x ≠ EntId.idOf a := by
        intro hc
        have hmm : EntId.idOf a ∈ xs.map EntId.idOf :=
          List.mem_map_of_mem _ hh
        rw [← hc] at hmm
        exact (List.nodup_cons.mp hnd).1 hmm
      simp only [hne, if_false]
      exact ih (List.nodup_cons.mp hnd).2 hh

/-- Field-by-field effect of `completeRecUpdate`: only the
recommendation store changes, and only by an in-place update. -/
theorem completeRecUpdate_effect (st : State) (a : Action) (status : String) :
    (completeRecUpdate st a status).actions = st.actions ∧
    (completeRecUpdate st a status).actionExecutions = st.actionExecutions ∧
    (completeRecUpdate st a status).workflows = st.workflows ∧
    (completeRecUpdate st a status).workflowExecutions =
      st.workflowExecutions ∧
    (completeRecUpdate st a status).nextId = st.nextId ∧
    (completeRecUpdate st a status).now = st.now ∧
    (completeRecUpdate st a status).recommendations.map EntId.idOf =
      st.recommendations.map EntId.idOf := by
  unfold completeRecUpdate
  repeat' split
  all_goals simp [updateById_map_id]

/-- General success lemma for `complete_action_execution` on a live
execution record whose Action row exists: the call closes the record and
the Action with the given status and only performs in-place updates. -/
theorem completeActionExecution_ok (s2 : State) (eid : Nat)
    (status : String) (res : Option ExecPayload) (logs : Option String)
    (ex0 : ActionExecution) (a1 : Action)
    (hfind0 : findActionExecution s2 eid = some ex0)
    (hprog : ex0.status = "in_progress")
    (hga : getAction s2 ex0.action_id = some a1) :
    ∃ (s4 : State) (ex1 : ActionExecution),
      completeActionExecution s2 eid status res logs = (s4, .ok ex1) ∧
      EntId.idOf ex1 = eid ∧ ex1.status = status ∧ ex1.logs = logs ∧
      (∀ j, j ≠ ex0.action_id → getAction s4 j = getAction s2 j) ∧
      (∃ a2, getAction s4 ex0.action_id = some a2 ∧ a2.status = status) ∧
      findActionExecution s4 eid = some ex1 ∧
      s4.actions.map EntId.idOf = s2.actions.map EntId.idOf ∧
      s4.recommendations.map EntId.idOf =
        s2.recommendations.map EntId.idOf ∧
      s4.actionExecutions.map EntId.idOf =
        s2.actionExecutions.map EntId.idOf ∧
      s4.workflows = s2.workflows ∧
      s4.workflowExecutions = s2.workflowExecutions ∧
      s4.nextId = s2.nextId ∧ s4.now = s2.now := by
  have hexid : EntId.idOf ex0 = eid := findById_eq_some_id _ _ _ hfind0
  have haid : EntId.idOf a1 = ex0.action_id := findById_eq_some_id _ _ _ hga
  have hprog' : (ex0.status == "in_progress") = true := by simp [hprog]
  obtain ⟨ex1, hex1⟩ : ∃ ex1 : ActionExecution,
      ex1 = { ex0 with
              status := status
              end_time := some s2.now
              result := res
              logs := logs } :=
    ⟨_, rfl⟩
  obtain ⟨a2, ha2⟩ : ∃ a2 : Action,
      a2 = { a1 with
             status := status
             completed_time := some s2.now
             result := res } :=
    ⟨_, rfl⟩
  obtain ⟨s3, hs3⟩ : ∃ s3 : State,
      s3 = { s2 with
             actionExecutions := updateById s2.actionExecutions ex1 } :=
    ⟨_, rfl⟩
  obtain ⟨s35, hs35⟩ : ∃ s35 : State,
      s35 = { s3 with actions := updateById s3.actions a2 } :=
    ⟨_, rfl⟩
  have hcall : completeActionExecution s2 eid status res logs =
      (completeRecUpdate s35 a1 status, .ok ex1) := by
    unfold completeActionExecution
    rw [hfind0]
    simp only [hprog', Bool.not_true, Bool.false_eq_true, if_false]
    have hga' : getAction
        { s2 with
          actionExecutions :=
            updateById s2.actionExecutions
              { ex0 with
                status := status
                end_time := some s2.now
                result := res
                logs := logs } }
        ex0.action_id = some a1 := hga
    rw [hga']
    dsimp only
    rw [hs35, hs3]
    dsimp only
    rw [hex1, ha2]
  obtain ⟨hact, hexec, hwf, hwfe, hnid, hnow, hrecs⟩ :=
    completeRecUpdate_effect s35 a1 status
  refine ⟨completeRecUpdate s35 a1 status, ex1, hcall, ?_, ?_, ?_, ?_, ?_,
    ?_, ?_, ?_, ?_, ?_, ?_, ?_, ?_⟩
  · rw [hex1]
    exact hexid
  · rw [hex1]
  · rw [hex1]
  · intro j hj
    show findById (completeRecUpdate s35 a1 status).actions j = _
    rw [hact, hs35, hs3]
    show findById (updateById s2.actions a2) j = _
    have hne : j ≠ EntId.idOf a2 := by
      rw [ha2]
      show j ≠ a1.id
      exact fun hc => hj (hc.trans haid)
    rw [findById_updateById_ne _ _ _ hne]
    rfl
  · refine ⟨a2, ?_, by rw [ha2]⟩
    show findById (completeRecUpdate s35 a1 status).actions ex0.action_id =
      some a2
    rw [hact, hs35, hs3]
    show findById (updateById s2.actions a2) ex0.action_id = some a2
    have hid2 : EntId.idOf a2 = ex0.action_id := by
      rw [ha2]
      exact haid
    have hsome : (findById s2.actions (EntId.idOf a2)).isSome := by
      rw [hid2]
      simp [show findById s2.actions ex0.action_id = some a1 from hga]
    have := findById_updateById_self s2.actions a2 hsome
    rw [hid2] at this
    exact this
  · show findById (completeRecUpdate s35 a1 status).actionExecutions eid =
      some ex1
    rw [hexec, hs35, hs3]
    show findById (updateById s2.actionExecutions ex1) eid = some ex1
    have hid1 : EntId.idOf ex1 = eid := by
      rw [hex1]
      exact hexid
    have hsome : (findById s2.actionExecutions (EntId.idOf ex1)).isSome := by
      rw [hid1]
      simp [show findById s2.actionExecutions eid = some ex0 from hfind0]
    have := findById_updateById_self s2.actionExecutions ex1 hsome
    rw [hid1] at this
    exact this
  · rw [hact, hs35, hs3]
    exact updateById_map_id _ _
  · rw [hrecs, hs35, hs3]
  · rw [hexec, hs35, hs3]
    exact updateById_map_id _ _
  · rw [hwf, hs35, hs3]
  · rw [hwfe, hs35, hs3]
  · rw [hnid, hs35, hs3]
  · rw [hnow, hs35, hs3]

theorem updateRecommendationStatus_ok (s : State) (rid : Nat)
    (status : String) (hsome : (getRecommendation s rid).isSome) :
    ∃ (s' : State) (r' : Recommendation),
      updateRecommendationStatus s rid status = (s', .ok r') ∧
      s'.actions = s.actions ∧ s'.actionExecutions = s.actionExecutions ∧
      s'.recommendations.map EntId.idOf =
        s.recommendations.map EntId.idOf ∧
      s'.workflows = s.workflows ∧
      s'.workflowExecutions = s.workflowExecutions ∧
      s'.nextId = s.nextId ∧ s'.now = s.now := by
  obtain ⟨r, hr⟩ := Option.isSome_iff_exists.mp hsome
  refine ⟨{ s with
            recommendations :=
              updateById s.recommendations { r with status := status } },
    { r with status := status }, ?_, rfl, rfl, updateById_map_id _ _, rfl,
    rfl, rfl, rfl⟩
  unfold updateRecommendationStatus
  rw [hr]

/-- General success lemma for `ActionExecutionEngine.execute_action` on a
runnable Action (no approval gate, pending or failed, fresh execution
ids, existing originating Recommendation): whatever the provider does,
the engine returns a result (no exception escapes), touches no other
Action, performs only in-place updates plus one appended execution
record, and leaves the clock untouched. -/
theorem engineExecuteAction_ok (s : State) (aid : Nat) (p : Provider)
    (x : Option Nat) (a : Action)
    (ha : getAction s aid = some a)
    (happrove : a.requires_approval = true → a.approval_status = "approved")
    (hstatus : a.status = "pending" ∨ a.status = "failed")
    (hfresh : ∀ e ∈ s.actionExecutions, EntId.idOf e < s.nextId)
    (hrec : ∀ rid, a.recommendation_id = some rid →
      (getRecommendation s rid).isSome) :
    ∃ (s' : State) (r : EngResult),
      engineExecuteAction s aid p x = (s', .ok r) ∧
      r.action_id = aid ∧
      (∀ j, j ≠ aid → getAction s' j = getAction s j) ∧
      s'.actions.map EntId.idOf = s.actions.map EntId.idOf ∧
      s'.recommendations.map EntId.idOf =
        s.recommendations.map EntId.idOf ∧
      (∀ e ∈ s'.actionExecutions, EntId.idOf e < s'.nextId) ∧
      s.nextId ≤ s'.nextId ∧
      s'.now = s.now := by
  have haid : a.id = aid := findById_eq_some_id _ _ _ ha
  have hgate : (a.requires_approval && !(a.approval_status == "approved"))
      = false := by
    cases hra : a.requires_approval with
    | false => rfl
    | true => simp [happrove hra]
  have hst : (!(a.status == "pending" || a.status == "failed")) = false := by
    rcases hstatus with h | h <;> simp [h]
  obtain ⟨a1, ha1⟩ : ∃ a1 : Action,
      a1 = { a with status := "in_progress", executed_time := some s.now } :=
    ⟨_, rfl⟩
  obtain ⟨ex0, hex0⟩ : ∃ ex0 : ActionExecution,
      ex0 = { id := s.nextId, action_id := aid, executor_id := x,
              status := "in_progress", start_time := s.now } :=
    ⟨_, rfl⟩
  obtain ⟨s2, hs2⟩ : ∃ s2 : State,
      s2 = { s with
             actions := updateById s.actions a1,
             actionExecutions := s.actionExecutions ++ [ex0],
             nextId := s.nextId + 1 } :=
    ⟨_, rfl⟩
  have hsvc : svcExecuteAction s aid x = (s2, .ok ex0) := by
    rw [hs2, hex0, ha1]
    unfold svcExecuteAction
    rw [ha]
    simp only [hgate, Bool.false_eq_true, if_false, hst]
  have hfind0 : findActionExecution s2 s.nextId = some ex0 := by
    have hne : ∀ e ∈ s.actionExecutions, EntId.idOf e ≠ EntId.idOf ex0 := by
      intro e he
      rw [hex0]
      exact Nat.ne_of_lt (hfresh e he)
    have := findById_append_fresh s.actionExecutions ex0 hne
    rw [hs2]
    show findById (s.actionExecutions ++ [ex0]) s.nextId = some ex0
    have hexid : EntId.idOf ex0 = s.nextId := by rw [hex0]; rfl
    rw [hexid] at this
    exact this
  have hga1 : getAction s2 aid = some a1 := by
    rw [hs2]
    show findById (updateById s.actions a1) aid = some a1
    have hid1 : EntId.idOf a1 = aid := by rw [ha1]; exact haid
    have hsome : (findById s.actions (EntId.idOf a1)).isSome := by
      rw [hid1]
      simp [show findById s.actions aid = some a from ha]
    have := findById_updateById_self s.actions a1 hsome
    rw [hid1] at this
    exact this
  have hexid0 : ex0.id = s.nextId := by rw [hex0]
  have hact0 : ex0.action_id = aid := by rw [hex0]
  have hprog0 : ex0.status = "in_progress" := by rw [hex0]
  have hga1' : getAction s2 ex0.action_id = some a1 := by
    rw [hact0]
    exact hga1
  -- frame facts of s → s2
  have hs2actmap : s2.actions.map EntId.idOf = s.actions.map EntId.idOf := by
    rw [hs2]
    exact updateById_map_id _ _
  have hs2rec : s2.recommendations = s.recommendations := by rw [hs2]
  have hs2now : s2.now = s.now := by rw [hs2]
  have hs2nid : s2.nextId = s.nextId + 1 := by rw [hs2]
  have hs2exmap : s2.actionExecutions.map EntId.idOf =
      s.actionExecutions.map EntId.idOf ++ [s.nextId] := by
    rw [hs2]
    show (s.actionExecutions ++ [ex0]).map EntId.idOf = _
    rw [List.map_append]
    rw [show ([ex0] : List ActionExecution).map EntId.idOf =
      [EntId.idOf ex0] from rfl]
    rw [show EntId.idOf ex0 = s.nextId from by rw [hex0]; rfl]
  have hframe2 : ∀ j, j ≠ aid → getAction s2 j = getAction s j := by
    intro j hj
    rw [hs2]
    show findById (updateById s.actions a1) j = findById s.actions j
    have hid1 : EntId.idOf a1 = aid := by rw [ha1]; exact haid
    exact findById_updateById_ne _ _ _ (by rw [hid1]; exact hj)
  -- the closing bookkeeping, shared by all provider outcomes
  have hcomp := fun (status : String) (res : Option ExecPayload)
      (logs : Option String) =>
    completeActionExecution_ok s2 s.nextId status res logs ex0 a1 hfind0
      hprog0 hga1'
  -- assembling the conclusion bundle from a state reached from s2 by
  -- in-place updates only
  have hbundle : ∀ s' : State,
      (∀ j, j ≠ aid → getAction s' j = getAction s2 j) →
      s'.actions.map EntId.idOf = s2.actions.map EntId.idOf →
      s'.recommendations.map EntId.idOf =
        s2.recommendations.map EntId.idOf →
      s'.actionExecutions.map EntId.idOf =
        s2.actionExecutions.map EntId.idOf →
      s'.nextId = s2.nextId → s'.now = s2.now →
      ((∀ j, j ≠ aid → getAction s' j = getAction s j) ∧
        s'.actions.map EntId.idOf = s.actions.map EntId.idOf ∧
        s'.recommendations.map EntId.idOf =
          s.recommendations.map EntId.idOf ∧
        (∀ e ∈ s'.actionExecutions, EntId.idOf e < s'.nextId) ∧
        s.nextId ≤ s'.nextId ∧
        s'.now = s.now) := by
    intro s' hfr hmap hrmap hemap hnid hnow
    refine ⟨fun j hj => (hfr j hj).trans (hframe2 j hj),
      hmap.trans hs2actmap, hrmap.trans (by rw [hs2rec]), ?_, ?_, ?_⟩
    · intro e he
      have hmem : EntId.idOf e ∈ s'.actionExecutions.map EntId.idOf :=
        List.mem_map_of_mem _ he
      rw [hemap, hs2exmap] at hmem
      rw [hnid, hs2nid]
      rcases List.mem_append.mp hmem with hh | hh
      · obtain ⟨e0, he0, heq0⟩ := List.mem_map.mp hh
        rw [← heq0]
        exact Nat.lt_succ_of_lt (hfresh e0 he0)
      · rw [List.mem_singleton.mp hh]
        exact Nat.lt_succ_self _
    · rw [hnid, hs2nid]
      exact Nat.le_succ _
    · rw [hnow, hs2now]
  obtain ⟨rinfo, hrinfo⟩ : ∃ ri : Option String × Option String,
      ri = (match a.resource_id with
            | some rid =>
              match getResource s2 rid with
              | some r => (some r.resource_id, some r.resource_type)
              | none => (none, none)
            | none => (none, none)) :=
    ⟨_, rfl⟩
  cases hpo : p.execAction (mapToProviderAction a.action_type rinfo.2)
      rinfo.1 rinfo.2 a.parameters with
  | raised e =>
    obtain ⟨s4, ex1, hcq, hexid1, hex1st, hex1logs, hframe4, hga2ex,
      hfind4, hactmap4, hrecmap4, hexmap4, hwf4, hwfe4, hnid4, hnow4⟩ :=
      hcomp "failed" (some (.failure e))
        (some ("Action execution failed at " ++ toString s2.now ++
          "\nError: " ++ ("Error executing action: " ++ e)))
    refine ⟨s4, { action_id := aid, execution_id := ex0.id,
                  status := "failed",
                  message := "Error executing action: " ++ e }, ?_, rfl,
      hbundle s4 (fun j hj => hframe4 j (by rw [hact0]; exact hj))
        hactmap4 hrecmap4 hexmap4 hnid4 hnow4⟩
    unfold engineExecuteAction
    rw [ha]
    simp only [hgate, Bool.false_eq_true, if_false]
    rw [hsvc]
    dsimp only
    rw [← hrinfo]
    rw [hpo]
    dsimp only
    unfold engineHandleError
    dsimp only
    rw [hexid0]
    rw [hcq]
  | ok success message =>
    cases success with
    | false =>
      obtain ⟨s4, ex1, hcq, hexid1, hex1st, hex1logs, hframe4, hga2ex,
        hfind4, hactmap4, hrecmap4, hexmap4, hwf4, hwfe4, hnid4, hnow4⟩ :=
        hcomp "failed" (some (.provider false message))
          (some ("Action executed at " ++ toString s2.now ++
            "\nResult: " ++ message))
      refine ⟨s4, { action_id := aid, execution_id := ex0.id,
                    status := "failed", message := message }, ?_, rfl,
        hbundle s4 (fun j hj => hframe4 j (by rw [hact0]; exact hj))
          hactmap4 hrecmap4 hexmap4 hnid4 hnow4⟩
      unfold engineExecuteAction
      rw [ha]
      simp only [hgate, Bool.false_eq_true, if_false]
      rw [hsvc]
      dsimp only
      rw [← hrinfo]
      rw [hpo]
      dsimp only
      simp only
        [show (if false = true then "completed" else "failed") = "failed"
          from rfl]
      rw [hexid0]
      rw [hcq]
      cases a.recommendation_id with
      | none => rfl
      | some rid => rfl
    | true =>
      obtain ⟨s4, ex1, hcq, hexid1, hex1st, hex1logs, hframe4, hga2ex,
        hfind4, hactmap4, hrecmap4, hexmap4, hwf4, hwfe4, hnid4, hnow4⟩ :=
        hcomp "completed" (some (.provider true message))
          (some ("Action executed at " ++ toString s2.now ++
            "\nResult: " ++ message))
      cases hrid : a.recommendation_id with
      | none =>
        refine ⟨s4, { action_id := aid, execution_id := ex0.id,
                      status := "completed", message := message }, ?_, rfl,
          hbundle s4 (fun j hj => hframe4 j (by rw [hact0]; exact hj))
            hactmap4 hrecmap4 hexmap4 hnid4 hnow4⟩
        unfold engineExecuteAction
        rw [ha]
        simp only [hgate, Bool.false_eq_true, if_false]
        rw [hsvc]
        dsimp only
        rw [← hrinfo]
        rw [hpo]
        dsimp only
        simp only [if_true]
        rw [hexid0]
        rw [hcq]
        rw [hrid]
      | some rid =>
        have hsome4 : (getRecommendation s4 rid).isSome := by
          show (findById s4.recommendations rid).isSome
          rw [findById_isSome_iff, hrecmap4, hs2rec]
          rw [← findById_isSome_iff]
          exact hrec rid hrid
        obtain ⟨s5, r5, hupd, hacts5, hexecs5, hrecmap5, hwf5, hwfe5,
          hnid5, hnow5⟩ := updateRecommendationStatus_ok s4 rid "applied"
          hsome4
        refine ⟨s5, { action_id := aid, execution_id := ex0.id,
                      status := "completed", message := message }, ?_, rfl,
          hbundle s5 ?_ ?_ ?_ ?_ ?_ ?_⟩
        · unfold engineExecuteAction
          rw [ha]
          simp only [hgate, Bool.false_eq_true, if_false]
          rw [hsvc]
          dsimp only
          rw [← hrinfo]
          rw [hpo]
          dsimp only
          simp only [if_true]
          rw [hexid0]
          rw [hcq]
          rw [hrid]
          dsimp only
          simp only
            [show (("completed" : String) == "completed") = true from rfl,
             if_true]
          rw [hupd]
        · intro j hj
          show findById s5.actions j = _
          rw [hacts5]
          exact hframe4 j (by rw [hact0]; exact hj)
        · rw [hacts5]
          exact hactmap4
        · exact hrecmap5.trans hrecmap4
        · rw [hexecs5]
          exact hexmap4
        · rw [hnid5]
          exact hnid4
        · rw [hnow5]
          exact hnow4

theorem processScheduledActionsGo_ok (p : Provider) (n0 : Int) :
    ∀ (l : List Action) (s : State) (acc : List EngResult),
      (∀ a ∈ l, getAction s a.id = some a) →
      (∀ a ∈ l, a.requires_approval = true →
        a.approval_status = "approved") →
      (∀ a ∈ l, a.status = "pending" ∨ a.status = "failed") →
      (∀ e ∈ s.actionExecutions, EntId.idOf e < s.nextId) →
      (∀ a ∈ l, ∀ rid, a.recommendation_id = some rid →
        rid ∈ s.recommendations.map EntId.idOf) →
      (l.map EntId.idOf).Nodup →
      s.now = n0 →
      ∃ (s' : State) (rs : List EngResult),
        processScheduledActionsGo p s l acc = (s', .ok (acc ++ rs)) ∧
        rs.map (fun r => r.action_id) =
          (l.filter (fun a =>
            match a.scheduled_time with
            | some t => decide (t ≤ n0)
            | none => false)).map (fun a => a.id)
  | [], s, acc, _, _, _, _, _, _, _ =>
    ⟨s, [], by simp [processScheduledActionsGo], rfl⟩
  | a :: rest, s, acc, H1, H2, H3, H4, H5, H6, H7 => by
    have hamem : a ∈ a :: rest := List.mem_cons_self a rest
    cases hsch : a.scheduled_time with
    | none =>
      obtain ⟨s', rs, hgo, hmap⟩ := processScheduledActionsGo_ok p n0 rest s
        acc (fun b hb => H1 b (List.mem_cons_of_mem a hb))
        (fun b hb => H2 b (List.mem_cons_of_mem a hb))
        (fun b hb => H3 b (List.mem_cons_of_mem a hb)) H4
        (fun b hb => H5 b (List.mem_cons_of_mem a hb))
        (List.nodup_cons.mp H6).2 H7
      refine ⟨s', rs, ?_, ?_⟩
      · unfold processScheduledActionsGo
        rw [hsch]
        dsimp only
        exact hgo
      · rw [hmap, List.filter_cons]
        simp [hsch]
    | some t =>
      by_cases ht : t ≤ s.now
      · obtain ⟨s1, r, heng, hraid, hframe, hactmap, hrecmap, hfresh1, hnid,
          hnow1⟩ := engineExecuteAction_ok s a.id p none a (H1 a hamem)
          (H2 a hamem) (H3 a hamem) H4
          (fun rid hrid => by
            rw [show getRecommendation s rid = findById s.recommendations rid
              from rfl, findById_isSome_iff]
            exact H5 a hamem rid hrid)
        have hnotin : EntId.idOf a ∉ rest.map EntId.idOf :=
          (List.nodup_cons.mp H6).1
        obtain ⟨s', rs, hgo, hmap⟩ := processScheduledActionsGo_ok p n0 rest
          s1 (acc ++ [r])
          (fun b hb => by
            have hbne : b.id ≠ a.id := by
              intro hc
              apply hnotin
              have : EntId.idOf b ∈ rest.map EntId.idOf :=
                List.mem_map_of_mem _ hb
              rw [show EntId.idOf b = b.id from rfl, hc] at this
              exact this
            rw [hframe b.id hbne]
            exact H1 b (List.mem_cons_of_mem a hb))
          (fun b hb => H2 b (List.mem_cons_of_mem a hb))
          (fun b hb => H3 b (List.mem_cons_of_mem a hb)) hfresh1
          (fun b hb rid hrid => by
            rw [hrecmap]
            exact H5 b (List.mem_cons_of_mem a hb) rid hrid)
          (List.nodup_cons.mp H6).2 (hnow1.trans H7)
        refine ⟨s', r :: rs, ?_, ?_⟩
        · unfold processScheduledActionsGo
          rw [hsch]
          dsimp only
          rw [if_pos ht, heng]
          dsimp only
          rw [hgo]
          rw [List.append_assoc]
          rfl
        · rw [List.filter_cons]
          have hpred : (match a.scheduled_time with
              | some t => decide (t ≤ n0)
              | none => false) = true := by
            rw [hsch]
            rw [← H7]
            simp [ht]
          simp only [hpred, if_true]
          rw [List.map_cons, List.map_cons, hmap, hraid]
      · obtain ⟨s', rs, hgo, hmap⟩ := processScheduledActionsGo_ok p n0 rest
          s acc (fun b hb => H1 b (List.mem_cons_of_mem a hb))
          (fun b hb => H2 b (List.mem_cons_of_mem a hb))
          (fun b hb => H3 b (List.mem_cons_of_mem a hb)) H4
          (fun b hb => H5 b (List.mem_cons_of_mem a hb))
          (List.nodup_cons.mp H6).2 H7
        refine ⟨s', rs, ?_, ?_⟩
        · unfold processScheduledActionsGo
          rw [hsch]
          dsimp only
          rw [if_neg ht]
          exact hgo
        · rw [hmap, List.filter_cons]
          have hpred : (match a.scheduled_time with
              | some t => decide (t ≤ n0)
              | none => false) = false := by
            rw [hsch]
            rw [← H7]
            simp [ht]
          simp [hpred]

/-- C5, amended: `process_scheduled_actions` executes exactly the Actions
whose status is `'pending'` and whose `scheduled_time` is set and `≤ now`,
calling `execute_action` on each sequentially (in store order); pending
Actions with no `scheduled_time` and failed Actions are never scanned. -/
theorem process_scheduled_actions_executes_due_pending (s : State)
    (p : Provider)
    (hnodup : (s.actions.map EntId.idOf).Nodup)
    (hfresh : ∀ e ∈ s.actionExecutions, EntId.idOf e < s.nextId)
    (happ : ∀ a ∈ s.actions, a.requires_approval = true →
      a.approval_status = "approved")
    (hrec : ∀ a ∈ s.actions, ∀ rid, a.recommendation_id = some rid →
      rid ∈ s.recommendations.map EntId.idOf) :
    ∃ (s' : State) (rs : List EngResult),
      processScheduledActions s p = (s', .ok rs) ∧
      rs.map (fun r => r.action_id) =
        ((s.actions.filter (fun a => a.status == "pending")).filter
          (fun a =>
            match a.scheduled_time with
            | some t => decide (t ≤ s.now)
            | none => false)).map (fun a => a.id) := by
  have hsub : List.Sublist
      ((s.actions.filter (fun a => a.status == "pending")).map EntId.idOf)
      (s.actions.map EntId.idOf) :=
    (List.filter_sublist s.actions).map EntId.idOf
  obtain ⟨s', rs, hgo, hmap⟩ := processScheduledActionsGo_ok p s.now
    (getActionsByStatus s "pending") s []
    (fun a ha =>
      findById_of_mem_nodup s.actions a hnodup (List.mem_of_mem_filter ha))
    (fun a ha => happ a (List.mem_of_mem_filter ha))
    (fun a ha => Or.inl (by
      have := List.of_mem_filter ha
      exact eq_of_beq this))
    hfresh
    (fun a ha => hrec a (List.mem_of_mem_filter ha))
    (hnodup.sublist hsub) rfl
  refine ⟨s', rs, ?_, hmap⟩
  show processScheduledActionsGo p s (getActionsByStatus s "pending") [] = _
  rw [hgo]
  rw [List.nil_append]

/-- A pending, approval-free Action whose `scheduled_time` is due. -/
def dueAction : Action :=
  { id := 1
    cloud_account_id := 10
    action_type := "stop_resource"
    requires_approval := false
    scheduled_time := some 40 }

def dueScanState : State := { actions := [dueAction], nextId := 2, now := 50 }

theorem process_scheduled_actions_executes_due_pending_witness :
    ∃ (s' : State) (rs : List EngResult),
      processScheduledActions dueScanState trivialProvider = (s', .ok rs) ∧
      rs.map (fun r => r.action_id) =
        ((dueScanState.actions.filter (fun a => a.status == "pending")).filter
          (fun a =>
            match a.scheduled_time with
            | some t => decide (t ≤ dueScanState.now)
            | none => false)).map (fun a => a.id) :=
  process_scheduled_actions_executes_due_pending dueScanState
    trivialProvider (by decide)
    (fun e he => absurd he (List.not_mem_nil e))
    (fun a ha => by
      have ha' : a ∈ [dueAction] := ha
      rw [List.mem_singleton] at ha'
      subst ha'
      decide)
    (fun a ha rid hrid => by
      have ha' : a ∈ [dueAction] := ha
      rw [List.mem_singleton] at ha'
      subst ha'
      exact Option.noConfusion hrid)

/-- The state components the workflow engine's scan relies on: the
workflow store, the execution store, the clock, and monotonicity of the
id counter. -/
def WFrame (s s' : State) : Prop :=
  s'.workflows = s.workflows ∧
  s'.workflowExecutions = s.workflowExecutions ∧
  s'.now = s.now ∧
  s.nextId ≤ s'.nextId

theorem WFrame_refl (s : State) : WFrame s s :=
  ⟨rfl, rfl, rfl, Nat.le_refl _⟩

theorem WFrame_trans {s1 s2 s3 : State} (h1 : WFrame s1 s2)
    (h2 : WFrame s2 s3) : WFrame s1 s3 :=
  ⟨h2.1.trans h1.1, h2.2.1.trans h1.2.1, h2.2.2.1.trans h1.2.2.1,
   h1.2.2.2.trans h2.2.2.2⟩

theorem svcExecuteAction_wf1 (s : State) (aid : Nat) (x : Option Nat) :
    WFrame s (svcExecuteAction s aid x).1 := by
  unfold svcExecuteAction
  repeat' split
  all_goals first
    | exact ⟨rfl, rfl, rfl, Nat.le_refl _⟩
    | exact ⟨rfl, rfl, rfl, Nat.le_succ _⟩

theorem completeRecUpdate_wframe (st : State) (a : Action) (status : String) :
    WFrame st (completeRecUpdate st a status) := by
  obtain ⟨h1, h2, h3, h4, h5, h6, h7⟩ := completeRecUpdate_effect st a status
  exact ⟨h3, h4, h6, le_of_eq h5.symm⟩

theorem completeActionExecution_wf1 (s : State) (eid : Nat) (status : String)
    (result : Option ExecPayload) (logs : Option String) :
    WFrame s (completeActionExecution s eid status result logs).1 := by
  unfold completeActionExecution
  repeat' split
  all_goals try exact ⟨rfl, rfl, rfl, Nat.le_refl _⟩
  all_goals dsimp only
  all_goals repeat' split
  all_goals try exact ⟨rfl, rfl, rfl, Nat.le_refl _⟩
  all_goals exact WFrame_trans ⟨rfl, rfl, rfl, Nat.le_refl _⟩ (completeRecUpdate_wframe _ _ _)

theorem completeActionExecution_wframe (s : State) (eid : Nat)
    (status : String) (result : Option ExecPayload) (logs : Option String)
    (s' : State) (o : Except String ActionExecution)
    (h : completeActionExecution s eid status result logs = (s', o)) :
    WFrame s s' := by
  have hf := completeActionExecution_wf1 s eid status result logs
  rw [h] at hf
  exact hf

theorem updateRecommendationStatus_wf1 (s : State) (rid : Nat)
    (status : String) :
    WFrame s (updateRecommendationStatus s rid status).1 := by
  unfold updateRecommendationStatus
  repeat' split
  all_goals exact ⟨rfl, rfl, rfl, Nat.le_refl _⟩

theorem updateRecommendationStatus_wframe (s : State) (rid : Nat)
    (status : String) (s' : State) (o : Except String Recommendation)
    (h : updateRecommendationStatus s rid status = (s', o)) : WFrame s s' := by
  have hf := updateRecommendationStatus_wf1 s rid status
  rw [h] at hf
  exact hf

theorem engineHandleError_wf1 (s : State) (aid eid : Nat) (e : String) :
    WFrame s (engineHandleError s aid eid e).1 := by
  unfold engineHandleError
  dsimp only
  split
  · rename_i s1 m heq
    exact completeActionExecution_wframe _ _ _ _ _ _ _ heq
  · rename_i s1 r heq
    exact completeActionExecution_wframe _ _ _ _ _ _ _ heq

theorem engineExecuteAction_wf1 (s : State) (aid : Nat) (p : Provider)
    (x : Option Nat) : WFrame s (engineExecuteAction s aid p x).1 := by
  unfold engineExecuteAction
  cases hga : getAction s aid with
  | none => exact WFrame_refl s
  | some action =>
    dsimp only
    split
    · exact WFrame_refl s
    · rcases hsvc : svcExecuteAction s aid x with ⟨s1, o1⟩
      have Hsvc : WFrame s s1 := by
        have h := svcExecuteAction_wf1 s aid x
        rw [hsvc] at h
        exact h
      cases o1 with
      | error m => exact Hsvc
      | ok execu =>
        dsimp only
        repeat' split
        all_goals first
          | exact WFrame_trans Hsvc (engineHandleError_wf1 _ _ _ _)
          | (rename_i heqC
             exact WFrame_trans Hsvc (WFrame_trans
               (completeActionExecution_wframe _ _ _ _ _ _ _ heqC)
               (engineHandleError_wf1 _ _ _ _)))
          | (rename_i heqC u1 u2 u3
             exact WFrame_trans Hsvc
               (completeActionExecution_wframe _ _ _ _ _ _ _ heqC))
          | (rename_i heqC u1 u2 u3 u4 u5
             exact WFrame_trans Hsvc
               (completeActionExecution_wframe _ _ _ _ _ _ _ heqC))
          | (rename_i heqC u1 u2 u3 u4 u5 u6 u7 u8 heqU
             exact WFrame_trans Hsvc (WFrame_trans
               (completeActionExecution_wframe _ _ _ _ _ _ _ heqC)
               (updateRecommendationStatus_wframe _ _ _ _ _ heqU)))
          | (rename_i heqC u1 u2 u3 u4 u5 u6 u7 u8 heqU
             exact WFrame_trans (WFrame_trans Hsvc (WFrame_trans
               (completeActionExecution_wframe _ _ _ _ _ _ _ heqC)
               (updateRecommendationStatus_wframe _ _ _ _ _ heqU)))
               (engineHandleError_wf1 _ _ _ _))

theorem engineExecuteAction_wframe (s : State) (aid : Nat) (p : Provider)
    (x : Option Nat) (s' : State) (o : Except String EngResult)
    (h : engineExecuteAction s aid p x = (s', o)) : WFrame s s' := by
  have hf := engineExecuteAction_wf1 s aid p x
  rw [h] at hf
  exact hf

theorem executeWorkflowStep_wf1 (s : State) (step : WStep)
    (pm : List (Nat × Provider)) (eid i : Nat) :
    WFrame s (executeWorkflowStep s step pm eid i).1 := by
  cases step with
  | actionStep action_id =>
    unfold executeWorkflowStep
    dsimp only
    repeat' split
    all_goals try exact WFrame_refl s
    all_goals rename_i heq
    all_goals exact engineExecuteAction_wframe _ _ _ _ _ _ heq
  | conditionStep condition tb fb =>
    unfold executeWorkflowStep
    dsimp only
    cases condition with
    | none => exact WFrame_refl s
    | some c =>
      dsimp only
      split
      · exact WFrame_refl s
      · split
        · rename_i rv s1 c' hres
          have hs1 : s1 = s := by
            repeat' split at hres
            all_goals injection hres with h1 h2
            all_goals exact h1.symm
          subst hs1
          split
          all_goals exact WFrame_refl _
        · rename_i rv s1 e hres
          have hs1 : s1 = s := by
            repeat' split at hres
            all_goals injection hres with h1 h2
            all_goals exact h1.symm
          subst hs1
          exact WFrame_refl _
  | delayStep d => exact WFrame_refl s
  | otherStep tag => exact WFrame_refl s

theorem executeWorkflowStep_wframe (s : State) (step : WStep)
    (pm : List (Nat × Provider)) (eid i : Nat) (s' : State)
    (o : Except String StepResult)
    (h : executeWorkflowStep s step pm eid i = (s', o)) : WFrame s s' := by
  have hf := executeWorkflowStep_wf1 s step pm eid i
  rw [h] at hf
  exact hf

theorem cancelWorkflowExecution_ok (s : State) (eid : Nat)
    (reason : Option String) (ex : WorkflowExecution)
    (hex : findWorkflowExecution s eid = some ex)
    (hst : ex.status = "in_progress") :
    ∃ (s' : State) (ex' : WorkflowExecution),
      cancelWorkflowExecution s eid reason = (s', .ok ex') ∧
      s'.workflows = s.workflows ∧
      s'.workflowExecutions.map EntId.idOf =
        s.workflowExecutions.map EntId.idOf ∧
      s'.now = s.now ∧
      s'.nextId = s.nextId := by
  unfold cancelWorkflowExecution
  rw [hex]
  dsimp only
  split
  · rename_i hcontra
    rw [hst] at hcontra
    exact absurd hcontra (by decide)
  · exact ⟨_, _, rfl, rfl, updateById_map_id _ _, rfl, rfl⟩

theorem wfHandleError_ok (s : State) (wid eid : Nat) (e : String)
    (ex : WorkflowExecution)
    (hex : findWorkflowExecution s eid = some ex)
    (hst : ex.status = "in_progress") :
    ∃ (s' : State) (r : WfResult),
      wfHandleError s wid eid e = (s', .ok r) ∧
      r.workflow_id = wid ∧
      s'.workflows = s.workflows ∧
      s'.workflowExecutions.map EntId.idOf =
        s.workflowExecutions.map EntId.idOf ∧
      s'.now = s.now ∧
      s'.nextId = s.nextId := by
  obtain ⟨s1, ex', hcq, hwfl, hmap, hnow, hnid⟩ :=
    cancelWorkflowExecution_ok s eid
      (some ("Error executing workflow: " ++ e)) ex hex hst
  refine ⟨s1,
    { workflow_id := wid
      execution_id := eid
      status := "failed"
      message := "Error executing workflow: " ++ e
      steps_results := [] }, ?_, rfl, hwfl, hmap, hnow, hnid⟩
  unfold wfHandleError
  dsimp only
  rw [hcq]

theorem processWorkflowStep_ok (s : State) (eid i : Nat) (sr : StepResult)
    (ex : WorkflowExecution) (w : Workflow)
    (hex : findWorkflowExecution s eid = some ex)
    (hst : ex.status = "in_progress")
    (hw : getWorkflowById s ex.workflow_id = some w) :
    ∃ (s' : State) (ns : NextStep),
      processWorkflowStep s eid i (some sr) = (s', .ok ns) ∧
      s'.workflows = s.workflows ∧
      s'.workflowExecutions.map EntId.idOf =
        s.workflowExecutions.map EntId.idOf ∧
      s'.now = s.now ∧
      s'.nextId = s.nextId ∧
      ((w.steps.length ≤ i + 1 ∧ ns = NextStep.done) ∨
       (¬ w.steps.length ≤ i + 1 ∧
        ∃ st, w.steps.get? (i + 1) = some st ∧
          ns = NextStep.cont (i + 1) st ∧
          ∃ ex1, findWorkflowExecution s' eid = some ex1 ∧
            ex1.status = ex.status ∧
            ex1.workflow_id = ex.workflow_id)) := by
  have hid : EntId.idOf ex = eid := findById_eq_some_id _ _ _ hex
  unfold processWorkflowStep
  rw [hex]
  dsimp only
  split
  · rename_i hcontra
    rw [hst] at hcontra
    exact absurd hcontra (by decide)
  · rw [hw]
    dsimp only
    split
    · rename_i hle
      refine ⟨_, NextStep.done, rfl, rfl, ?_, rfl, rfl, Or.inl ⟨hle, rfl⟩⟩
      rw [updateById_map_id, updateById_map_id]
    · rename_i hgt
      split
      · rename_i st hget
        obtain ⟨ex1, hex1def⟩ : ∃ ex1 : WorkflowExecution, ex1 =
            { ex with
              results := dictSet ex.results ("step_" ++ toString i)
                (ResEntry.step sr) } := ⟨_, rfl⟩
        refine ⟨_, _, rfl, rfl, updateById_map_id _ _, rfl, rfl,
          Or.inr ⟨hgt, st, hget, rfl, ex1, ?_, by rw [hex1def], by rw [hex1def]⟩⟩
        rw [hex1def]
        show findById (updateById s.workflowExecutions _) eid = _
        rw [← hid]
        exact findById_updateById_self _ _ (by
          show (findById s.workflowExecutions ex.id).isSome = true
          rw [show ex.id = eid from hid,
            show findById s.workflowExecutions eid = some ex from hex]
          rfl)
      · rename_i hnone
        exact absurd (List.get?_eq_none.mp hnone) hgt

theorem runSteps_ok (wf : Workflow) (pm : List (Nat × Provider)) (eid : Nat) :
    ∀ (fuel : Nat) (s : State) (current : Nat) (acc : List StepResult)
      (ex : WorkflowExecution),
      findWorkflowExecution s eid = some ex →
      ex.status = "in_progress" →
      ex.workflow_id = wf.id →
      getWorkflowById s wf.id = some wf →
      wf.steps.length ≤ fuel + current →
      ∃ (s' : State) (r : WfResult),
        runSteps wf pm eid fuel s current acc = (s', .ok r) ∧
        r.workflow_id = wf.id ∧
        s'.workflows = s.workflows ∧
        s'.workflowExecutions.map EntId.idOf =
          s.workflowExecutions.map EntId.idOf ∧
        s'.now = s.now ∧
        s.nextId ≤ s'.nextId
  | 0, s, current, acc, ex, hex, hst, hwid, hw, hfuel => by
    have hnone : wf.steps.get? current = none :=
      List.get?_eq_none.mpr (by omega)
    refine ⟨s,
      { workflow_id := wf.id
        execution_id := eid
        status := "completed"
        message := "Workflow completed successfully"
        steps_results := acc }, ?_, rfl, rfl, rfl, rfl, Nat.le_refl _⟩
    unfold runSteps
    rw [hnone]
  | fuel + 1, s, current, acc, ex, hex, hst, hwid, hw, hfuel => by
    cases hstep : wf.steps.get? current with
    | none =>
      refine ⟨s,
        { workflow_id := wf.id
          execution_id := eid
          status := "completed"
          message := "Workflow completed successfully"
          steps_results := acc }, ?_, rfl, rfl, rfl, rfl, Nat.le_refl _⟩
      unfold runSteps
      rw [hstep]
    | some step =>
      rcases hews : executeWorkflowStep s step pm eid current with ⟨s1, o1⟩
      have hWF1 : WFrame s s1 := executeWorkflowStep_wframe _ _ _ _ _ _ _ hews
      have hex1 : findWorkflowExecution s1 eid = some ex := by
        show findById s1.workflowExecutions eid = some ex
        rw [hWF1.2.1]
        exact hex
      have hw1 : getWorkflowById s1 wf.id = some wf := by
        show findById s1.workflows wf.id = some wf
        rw [hWF1.1]
        exact hw
      unfold runSteps
      rw [hstep]
      dsimp only
      rw [hews]
      cases o1 with
      | error e =>
        dsimp only
        obtain ⟨s2, r, hh, hrwid, hwfl2, hmap2, hnow2, hnid2⟩ :=
          wfHandleError_ok s1 wf.id eid e ex hex1 hst
        refine ⟨s2, r, hh, hrwid, ?_, ?_, ?_, ?_⟩
        · rw [hwfl2, hWF1.1]
        · rw [hmap2, hWF1.2.1]
        · rw [hnow2, hWF1.2.2.1]
        · exact le_trans hWF1.2.2.2 (le_of_eq hnid2.symm)
      | ok sr =>
        dsimp only
        split
        · obtain ⟨s2, ex2, hcq, hwfl2, hmap2, hnow2, hnid2⟩ :=
            cancelWorkflowExecution_ok s1 eid
              (some ("Step " ++ toString current ++ " failed: " ++
                sr.message)) ex hex1 hst
          rw [hcq]
          dsimp only
          refine ⟨s2,
            { workflow_id := wf.id
              execution_id := eid
              status := "failed"
              message := "Workflow failed at step " ++ toString current ++
                ": " ++ sr.message
              steps_results := acc ++ [sr]
              failed_step := some current }, rfl, rfl, ?_, ?_, ?_, ?_⟩
          · rw [hwfl2, hWF1.1]
          · rw [hmap2, hWF1.2.1]
          · rw [hnow2, hWF1.2.2.1]
          · exact le_trans hWF1.2.2.2 (le_of_eq hnid2.symm)
        · obtain ⟨s2, ns, hpq, hwfl2, hmap2, hnow2, hnid2, hbranch⟩ :=
            processWorkflowStep_ok s1 eid current sr ex wf hex1 hst
              (by rw [hwid]; exact hw1)
          rw [hpq]
          rcases hbranch with ⟨hle, hns⟩ |
            ⟨hgt, st, hget, hns, ex1, hfex1, hst1, hwid1⟩
          · subst hns
            dsimp only
            refine ⟨s2,
              { workflow_id := wf.id
                execution_id := eid
                status := "completed"
                message := "Workflow completed successfully"
                steps_results := acc ++ [sr] }, rfl, rfl, ?_, ?_, ?_, ?_⟩
            · rw [hwfl2, hWF1.1]
            · rw [hmap2, hWF1.2.1]
            · rw [hnow2, hWF1.2.2.1]
            · exact le_trans hWF1.2.2.2 (le_of_eq hnid2.symm)
          · subst hns
            dsimp only
            obtain ⟨s3, r, hrun, hrwid, hwfl3, hmap3, hnow3, hnid3⟩ :=
              runSteps_ok wf pm eid fuel s2 (current + 1) (acc ++ [sr]) ex1
                hfex1 (hst1.trans hst) (hwid1.trans hwid)
                (by
                  show findById s2.workflows wf.id = some wf
                  rw [hwfl2, hWF1.1]
                  exact hw)
                (by omega)
            refine ⟨s3, r, hrun, hrwid, ?_, ?_, ?_, ?_⟩
            · rw [hwfl3, hwfl2, hWF1.1]
            · rw [hmap3, hmap2, hWF1.2.1]
            · rw [hnow3, hnow2, hWF1.2.2.1]
            · have h1 := hWF1.2.2.2
              have h2 := hnid2
              have h3 := hnid3
              omega

theorem wfExecuteWorkflow_ok (s : State) (wid : Nat)
    (pm : List (Nat × Provider)) (x : Option Nat) (wf : Workflow)
    (hw : getWorkflowById s wid = some wf)
    (hact : wf.status = "active")
    (hfresh : ∀ e ∈ s.workflowExecutions, EntId.idOf e < s.nextId) :
    ∃ (s' : State) (r : WfResult),
      wfExecuteWorkflow s wid pm x = (s', .ok r) ∧
      r.workflow_id = wid ∧
      s'.workflows = s.workflows ∧
      s'.now = s.now ∧
      s.nextId ≤ s'.nextId ∧
      (∀ e ∈ s'.workflowExecutions, EntId.idOf e < s'.nextId) := by
  have hwfid : wf.id = wid := findById_eq_some_id _ _ _ hw
  obtain ⟨ex, hexdef⟩ : ∃ ex : WorkflowExecution, ex =
      { id := s.nextId
        workflow_id := wid
        initiator_id := x
        status := "in_progress"
        start_time := s.now } := ⟨_, rfl⟩
  obtain ⟨s1, hs1def⟩ : ∃ s1 : State, s1 =
      { s with
        workflowExecutions := s.workflowExecutions ++ [ex]
        nextId := s.nextId + 1 } := ⟨_, rfl⟩
  have hsvc : svcExecuteWorkflow s wid x = (s1, .ok ex) := by
    unfold svcExecuteWorkflow
    rw [hw]
    dsimp only
    split
    · rename_i hcontra
      rw [hact] at hcontra
      exact absurd hcontra (by decide)
    · rw [hs1def, hexdef]
  have hfex : findWorkflowExecution s1 ex.id = some ex := by
    show findById s1.workflowExecutions (EntId.idOf ex) = some ex
    rw [hs1def]
    show findById (s.workflowExecutions ++ [ex]) (EntId.idOf ex) = some ex
    refine findById_append_fresh s.workflowExecutions ex ?_
    intro y hy hc
    have hlt := hfresh y hy
    rw [hc, hexdef] at hlt
    exact absurd hlt (lt_irrefl _)
  have hst : ex.status = "in_progress" := by rw [hexdef]
  have hexwid : ex.workflow_id = wf.id := by rw [hexdef, hwfid]
  have hw1 : getWorkflowById s1 wf.id = some wf := by
    show findById s1.workflows wf.id = some wf
    rw [hs1def]
    show findById s.workflows wf.id = some wf
    rw [hwfid]
    exact hw
  have hnid1 : s1.nextId = s.nextId + 1 := by rw [hs1def]
  have hnow1 : s1.now = s.now := by rw [hs1def]
  have hwfl1 : s1.workflows = s.workflows := by rw [hs1def]
  obtain ⟨s2, r, hrun, hrwid, hwfl2, hmap2, hnow2, hnid2⟩ :=
    runSteps_ok wf pm ex.id (wf.steps.length + 1) s1 0 [] ex hfex hst
      hexwid hw1 (by omega)
  refine ⟨s2, r, ?_, by rw [hrwid, hwfid], by rw [hwfl2, hwfl1],
    by rw [hnow2, hnow1], by omega, ?_⟩
  · unfold wfExecuteWorkflow
    rw [hsvc]
    dsimp only
    rw [show getWorkflow s1 wid = some wf from by rw [← hwfid]; exact hw1]
    dsimp only
    exact hrun
  · intro e he
    have hmem : EntId.idOf e ∈ s1.workflowExecutions.map EntId.idOf := by
      rw [← hmap2]
      exact List.mem_map_of_mem _ he
    rw [hs1def] at hmem
    have hmem2 : EntId.idOf e ∈
        (s.workflowExecutions ++ [ex]).map EntId.idOf := hmem
    rw [List.map_append, List.mem_append] at hmem2
    rcases hmem2 with hmem2 | hmem2
    · rcases List.mem_map.mp hmem2 with ⟨y, hy, hyeq⟩
      have hlt := hfresh y hy
      rw [hyeq] at hlt
      omega
    · rw [List.map_singleton, List.mem_singleton] at hmem2
      have h2 : EntId.idOf e = s.nextId := by
        rw [hmem2, hexdef]
        rfl
      omega

theorem processScheduledWorkflowsGo_ok (pm : List (Nat × Provider))
    (n0 : Int) :
    ∀ (l : List Workflow) (s : State) (acc : List WfResult),
      (∀ w ∈ l, getWorkflowById s w.id = some w) →
      (∀ w ∈ l, w.status = "active") →
      (∀ e ∈ s.workflowExecutions, EntId.idOf e < s.nextId) →
      s.now = n0 →
      ∃ (s' : State) (rs : List WfResult),
        processScheduledWorkflowsGo pm s l acc = (s', .ok (acc ++ rs)) ∧
        rs.map (fun r => r.workflow_id) =
          (l.filter (fun w =>
            match (match w.trigger_config with
                   | some cfg => cfg.schedule
                   | none => none) with
            | some sch => shouldExecuteWorkflow sch n0
            | none => false)).map (fun w => w.id)
  | [], s, acc, _, _, _, _ =>
    ⟨s, [], by simp [processScheduledWorkflowsGo], rfl⟩
  | w :: rest, s, acc, H1, H2, H3, H4 => by
    have hwmem : w ∈ w :: rest := List.mem_cons_self w rest
    cases hcfg : w.trigger_config with
    | none =>
      obtain ⟨s', rs, hgo, hmap⟩ := processScheduledWorkflowsGo_ok pm n0 rest
        s acc (fun v hv => H1 v (List.mem_cons_of_mem w hv))
        (fun v hv => H2 v (List.mem_cons_of_mem w hv)) H3 H4
      refine ⟨s', rs, ?_, ?_⟩
      · unfold processScheduledWorkflowsGo
        rw [hcfg]
        exact hgo
      · rw [hmap, List.filter_cons]
        simp [hcfg]
    | some cfg =>
      cases hsch : cfg.schedule with
      | none =>
        obtain ⟨s', rs, hgo, hmap⟩ := processScheduledWorkflowsGo_ok pm n0
          rest s acc (fun v hv => H1 v (List.mem_cons_of_mem w hv))
          (fun v hv => H2 v (List.mem_cons_of_mem w hv)) H3 H4
        refine ⟨s', rs, ?_, ?_⟩
        · unfold processScheduledWorkflowsGo
          rw [hcfg]
          dsimp only
          rw [hsch]
          exact hgo
        · rw [hmap, List.filter_cons]
          simp [hcfg, hsch]
      | some sch =>
        cases hdue : shouldExecuteWorkflow sch s.now with
        | true =>
          obtain ⟨s1, r, hwx, hrwid, hwfl1, hnow1, hnid1, hfresh1⟩ :=
            wfExecuteWorkflow_ok s w.id pm none w (H1 w hwmem) (H2 w hwmem)
              H3
          obtain ⟨s', rs, hgo, hmap⟩ := processScheduledWorkflowsGo_ok pm n0
            rest s1 (acc ++ [r])
            (fun v hv => by
              show findById s1.workflows (EntId.idOf v) = some v
              rw [hwfl1]
              exact H1 v (List.mem_cons_of_mem w hv))
            (fun v hv => H2 v (List.mem_cons_of_mem w hv)) hfresh1
            (hnow1.trans H4)
          refine ⟨s', r :: rs, ?_, ?_⟩
          · unfold processScheduledWorkflowsGo
            rw [hcfg]
            dsimp only
            rw [hsch]
            dsimp only
            rw [hdue]
            rw [if_pos rfl]
            rw [hwx]
            dsimp only
            rw [hgo]
            rw [List.append_assoc]
            rfl
          · rw [List.filter_cons]
            have hpred : (match (match w.trigger_config with
                | some cfg => cfg.schedule
                | none => none) with
              | some sch => shouldExecuteWorkflow sch n0
              | none => false) = true := by
              rw [hcfg]
              dsimp only
              rw [hsch]
              dsimp only
              rw [← H4]
              exact hdue
            simp only [hpred, if_true]
            rw [List.map_cons, List.map_cons, hmap, hrwid]
        | false =>
          obtain ⟨s', rs, hgo, hmap⟩ := processScheduledWorkflowsGo_ok pm n0
            rest s acc (fun v hv => H1 v (List.mem_cons_of_mem w hv))
            (fun v hv => H2 v (List.mem_cons_of_mem w hv)) H3 H4
          refine ⟨s', rs, ?_, ?_⟩
          · unfold processScheduledWorkflowsGo
            rw [hcfg]
            dsimp only
            rw [hsch]
            dsimp only
            rw [hdue]
            rw [if_neg Bool.false_ne_true]
            exact hgo
          · rw [hmap, List.filter_cons]
            have hpred : (match (match w.trigger_config with
                | some cfg => cfg.schedule
                | none => none) with
              | some sch => shouldExecuteWorkflow sch n0
              | none => false) = false := by
              rw [hcfg]
              dsimp only
              rw [hsch]
              dsimp only
              rw [← H4]
              exact hdue
            simp [hpred]

/-- C9, amended: `process_scheduled_workflows` executes exactly the active
Workflows with `trigger_type = 'scheduled'` whose `trigger_config` carries
a `schedule` object that is due at `now`, calling `execute_workflow` on
each in store order, and workflows whose config lacks a `schedule` object
are skipped; a schedule with a `cron` field is always due, a `time` field
is due iff `now` is within 5 minutes (300 s) of it, and `interval_hours`
is due iff the hours elapsed since `last_execution` reach the interval, or
always when no `last_execution` is recorded. -/
theorem process_scheduled_workflows_executes_due (s : State)
    (pm : List (Nat × Provider))
    (hnodup : (s.workflows.map EntId.idOf).Nodup)
    (hfresh : ∀ e ∈ s.workflowExecutions, EntId.idOf e < s.nextId) :
    (∃ (s' : State) (rs : List WfResult),
      processScheduledWorkflows s pm = (s', .ok rs) ∧
      rs.map (fun r => r.workflow_id) =
        ((s.workflows.filter (fun w =>
            w.status == "active" && w.trigger_type == "scheduled")).filter
          (fun w =>
            match (match w.trigger_config with
                   | some cfg => cfg.schedule
                   | none => none) with
            | some sch => shouldExecuteWorkflow sch s.now
            | none => false)).map (fun w => w.id)) ∧
    (∀ (sch : Schedule) (c : String) (n : Int), sch.cron = some c →
      shouldExecuteWorkflow sch n = true) ∧
    (∀ (sch : Schedule) (t n : Int), sch.cron = none → sch.time = some t →
      (shouldExecuteWorkflow sch n = true ↔ |n - t| ≤ 300)) ∧
    (∀ (sch : Schedule) (q : ℚ) (n : Int), sch.cron = none →
      sch.time = none → sch.interval_hours = some q →
      sch.last_execution = none → shouldExecuteWorkflow sch n = true) ∧
    (∀ (sch : Schedule) (q : ℚ) (last n : Int), sch.cron = none →
      sch.time = none → sch.interval_hours = some q →
      sch.last_execution = some last →
      (shouldExecuteWorkflow sch n = true ↔
        q ≤ ((n - last : Int) : ℚ) / 3600)) := by
  refine ⟨?_, ?_, ?_, ?_, ?_⟩
  · obtain ⟨s', rs, hgo, hmap⟩ := processScheduledWorkflowsGo_ok pm s.now
      (getWorkflowsByTriggerType s "scheduled") s []
      (fun w hw => findById_of_mem_nodup s.workflows w hnodup
        (List.mem_of_mem_filter hw))
      (fun w hw => by
        have h := List.of_mem_filter hw
        rw [Bool.and_eq_true] at h
        exact eq_of_beq h.1)
      hfresh rfl
    refine ⟨s', rs, ?_, hmap⟩
    show processScheduledWorkflowsGo pm s
      (getWorkflowsByTriggerType s "scheduled") [] = _
    rw [hgo]
    rw [List.nil_append]
  · intro sch c n hcron
    unfold shouldExecuteWorkflow
    rw [hcron]
  · intro sch t n hcron htime
    unfold shouldExecuteWorkflow
    rw [hcron, htime]
    simp
  · intro sch q n hcron htime hint hlast
    unfold shouldExecuteWorkflow
    rw [hcron, htime, hint, hlast]
  · intro sch q last n hcron htime hint hlast
    unfold shouldExecuteWorkflow
    rw [hcron, htime, hint, hlast]
    simp

/-- An active scheduled Workflow whose `trigger_config['schedule']` holds
a `cron` expression: always due. -/
def cronDueWorkflow : Workflow :=
  { id := 21
    organization_id := 1
    name := "wf-due"
    trigger_type := "scheduled"
    trigger_config := some { schedule := some { cron := some "*/5 * * * *" } }
    steps := []
    status := "active" }

/-- An active scheduled Workflow whose `cron` sits at the top level of
`trigger_config` (no `schedule` object): skipped by the scan. -/
def topLevelCronWorkflow : Workflow :=
  { id := 22
    organization_id := 1
    name := "wf-skip"
    trigger_type := "scheduled"
    trigger_config := some { cron := some "*/5 * * * *" }
    steps := []
    status := "active" }

def wfScanState : State :=
  { workflows := [cronDueWorkflow, topLevelCronWorkflow]
    nextId := 30
    now := 1000 }

theorem process_scheduled_workflows_executes_due_witness :
    (∃ (s' : State) (rs : List WfResult),
      processScheduledWorkflows wfScanState [] = (s', .ok rs) ∧
      rs.map (fun r => r.workflow_id) =
        ((wfScanState.workflows.filter (fun w =>
            w.status == "active" && w.trigger_type == "scheduled")).filter
          (fun w =>
            match (match w.trigger_config with
                   | some cfg => cfg.schedule
                   | none => none) with
            | some sch => shouldExecuteWorkflow sch wfScanState.now
            | none => false)).map (fun w => w.id)) ∧
    (∀ (sch : Schedule) (c : String) (n : Int), sch.cron = some c →
      shouldExecuteWorkflow sch n = true) ∧
    (∀ (sch : Schedule) (t n : Int), sch.cron = none → sch.time = some t →
      (shouldExecuteWorkflow sch n = true ↔ |n - t| ≤ 300)) ∧
    (∀ (sch : Schedule) (q : ℚ) (n : Int), sch.cron = none →
      sch.time = none → sch.interval_hours = some q →
      sch.last_execution = none → shouldExecuteWorkflow sch n = true) ∧
    (∀ (sch : Schedule) (q : ℚ) (last n : Int), sch.cron = none →
      sch.time = none → sch.interval_hours = some q →
      sch.last_execution = some last →
      (shouldExecuteWorkflow sch n = true ↔
        q ≤ ((n - last : Int) : ℚ) / 3600)) :=
  process_scheduled_workflows_executes_due wfScanState [] (by decide)
    (fun e he => absurd he (List.not_mem_nil e))

end CloudCrawl
